import Mathlib

/-!
Shallow embedding of `fanctl.py` (vagnum08/fanctl), a one-shot generator that
maps a declarative fan-control configuration onto the live hwmon device tree
and emits a fancontrol configuration file.

External effects (the sysfs tree, the config file, the persisted artifact,
argparse, the write destination) are modelled as explicit inputs gathered in
a `World` record; the program logic itself is translated function by function
from the source.  Python exceptions are modelled with `Except PyErr`; Python
`exit(n)` and the interpreter's behaviour on uncaught exceptions are modelled
in `main_run`.
-/

/-- Python exception kinds that can arise in fanctl.py.  `hardwareMismatch`
models the `FileNotFoundError` raised at fanctl.py:312 together with the
identifying information (device, hwmon id, channel type, channel number)
that the code logs via `log.error` immediately before raising. -/
inductive PyErr where
  | configInvalid
  | keyError
  | valueError
  | indexError
  | hardwareMismatch (device : String) (hwmon : String) (hwmonType : String) (channel : Nat)
deriving Repr, DecidableEq

/-- Python dict subscript access: raises `KeyError` when the key is absent. -/
def pyGet (o : Option α) : Except PyErr α :=
  match o with
  | some a => .ok a
  | none => .error .keyError

/-- Python list subscript access: raises `IndexError` when out of range. -/
def pyIdx (l : List Int) (i : Nat) : Except PyErr Int :=
  match l.get? i with
  | some a => .ok a
  | none => .error .indexError

/-- Strip characters satisfying `p` from both ends of a character list
(the semantics of Python `str.strip`). -/
def pyStripBy (p : Char → Bool) (l : List Char) : List Char :=
  ((l.dropWhile p).reverse.dropWhile p).reverse

/-- Python `str.strip(chars)`: strips any of the given characters from both
ends (note: a character SET, not a literal affix). -/
def pyStripChars (cs : String) (l : List Char) : List Char :=
  pyStripBy (fun c => cs.data.contains c) l

/-- Python `str.strip()` with no argument: trim whitespace from both ends,
returned as a `String`. -/
def pyStripStr (s : String) : String :=
  String.mk (pyStripBy Char.isWhitespace s.data)

/-- Worker for `pyWords`: accumulates the current word (reversed). -/
def wordsAux (cur : List Char) : List Char → List (List Char)
  | [] => if cur.isEmpty then [] else [cur.reverse]
  | c :: rest =>
    if c.isWhitespace then
      if cur.isEmpty then wordsAux [] rest
      else cur.reverse :: wordsAux [] rest
    else wordsAux (c :: cur) rest

/-- Python `str.split()` with no argument: words separated by whitespace runs,
with no empty words produced. -/
def pyWords (l : List Char) : List (List Char) :=
  wordsAux [] l

/-- Python `str.split(sep)` for a single-character separator. -/
def splitOnChar (c : Char) : List Char → List (List Char)
  | [] => [[]]
  | x :: xs =>
    if x = c then [] :: splitOnChar c xs
    else
      match splitOnChar c xs with
      | [] => [[x]]
      | w :: ws => (x :: w) :: ws

/-- Bool test that `pat` is a leading segment of `l`. -/
def beginsWith (pat l : List Char) : Bool :=
  match pat, l with
  | [], _ => true
  | _ :: _, [] => false
  | c :: cs, d :: ds => if c = d then beginsWith cs ds else false

/-- Python `str.startswith`. -/
def pyStartsWith (s pre : String) : Bool :=
  beginsWith pre.data s.data

/-- Concatenation of a list of strings (left to right). -/
def strConcat : List String → String
  | [] => ""
  | s :: rest => s ++ strConcat rest

/-- Association-list lookup by key, first match wins (Python dict access on
our key-unique dict model). -/
def alookup (k : String) : List (String × β) → Option β
  | [] => none
  | p :: rest => if p.1 = k then some p.2 else alookup k rest

/-- Python `dict.update({k: v})`: replace the value in place when the key is
present (keeping its position), append otherwise. -/
def dictUpdate (l : List (String × β)) (k : String) (v : β) : List (String × β) :=
  if l.any (fun p => p.1 = k) then
    l.map (fun p => if p.1 = k then (k, v) else p)
  else l ++ [(k, v)]

/-- The `limits` sub-dict of one device declaration; `none` models an absent
key.  YAML scalar bounds are modelled as integers. -/
structure RawLimits where
  st : Option (List Int)
  temp : Option (List Int)
  pwm : Option (List Int)
deriving Repr, DecidableEq

/-- One device declaration from the fanctl config (`conf["devices"][name]`);
`none` models an absent key. -/
structure RawSettings where
  pwm : Option Nat
  temp : Option Nat
  fan : Option Nat
  limits : Option RawLimits
deriving Repr, DecidableEq

/-- Python `settings[hwmon_type]` for the channel keys consulted by
`generate_mapping` (fanctl.py:306). -/
def RawSettings.chan (s : RawSettings) : String → Option Nat
  | "pwm" => s.pwm
  | "fan" => s.fan
  | "temp" => s.temp
  | _ => none

/-- One live hwmon instance as recorded by `hwmon_detect` (fanctl.py:204):
dict value `{"devpath": ..., "hwmon": p.name}`. -/
structure DriverEntry where
  devpath : String
  hwmon : String
deriving Repr, DecidableEq

/-- The `"hwmon"` record attached to a resolved device by `generate_mapping`
(fanctl.py:315): dict value `{"devpath": ..., "id": ...}`. -/
structure HwmonRef where
  devpath : String
  id : String
deriving Repr, DecidableEq

/-- A resolved device: the declared settings together with the attached
`"hwmon"` record. -/
structure Resolved where
  settings : RawSettings
  hwmon : HwmonRef
deriving Repr, DecidableEq

/-- One directory entry of /sys/class/hwmon as seen by `hwmon_detect`:
its entry name `p.name` (e.g. "hwmon2"), the contents of its `name`
attribute file (`none` when the file does not exist), and the parts of its
resolved (symlink-free) path. -/
structure HwmonEntry where
  pname : String
  nameAttr : Option String
  resolvedParts : List String
deriving Repr, DecidableEq

/-- fanctl.py:35 `get_devpath`: join `path.resolve().parts[2:-2]` with "/". -/
def get_devpath (parts : List String) : String :=
  String.intercalate "/" ((parts.drop 2).dropLast.dropLast)

/-- The `DriverEntry` recorded for one scanned directory entry
(fanctl.py:204). -/
def mkDriverEntry (e : HwmonEntry) : DriverEntry :=
  ⟨get_devpath e.resolvedParts, e.pname⟩

/-- One iteration of the scan loop of `hwmon_detect` (fanctl.py:198-204). -/
def scanStep (paths : List (String × DriverEntry)) (e : HwmonEntry) :
    List (String × DriverEntry) :=
  match e.nameAttr with
  | none => paths
  | some txt => dictUpdate paths (pyStripStr txt) (mkDriverEntry e)

/-- Lexicographic code-point comparison of character lists: the order Python
uses to compare strings (and the order of `sorted(HWP.iterdir())`). -/
def charListLe : List Char → List Char → Bool
  | [], _ => true
  | _ :: _, [] => false
  | c :: cs, d :: ds =>
    if c.toNat < d.toNat then true
    else if d.toNat < c.toNat then false
    else charListLe cs ds

/-- String comparison by code points. -/
def strLe (a b : String) : Bool := charListLe a.data b.data

/-- Insert an entry into a list sorted by `pname`. -/
def insertEntry (e : HwmonEntry) : List HwmonEntry → List HwmonEntry
  | [] => [e]
  | x :: xs => if strLe e.pname x.pname then e :: x :: xs else x :: insertEntry e xs

/-- `sorted(HWP.iterdir())` (fanctl.py:198): directory entries in
lexicographic order of their names. -/
def sortEntries : List HwmonEntry → List HwmonEntry
  | [] => []
  | e :: es => insertEntry e (sortEntries es)

/-- fanctl.py:188 `hwmon_detect`: scan the hwmon tree in sorted order;
entries without a readable `name` attribute are skipped; later entries with
the same trimmed driver name overwrite earlier ones via `dict.update`. -/
def hwmon_detect (entries : List HwmonEntry) : List (String × DriverEntry) :=
  (sortEntries entries).foldl scanStep []

/-- fanctl.py:209 `validate_config`, applied to the `devices` mapping:
every device must have the keys pwm, temp, fan and limits, and every limit
list (st, temp, pwm) must be present with length at least 2. -/
def validate_config (devices : List (String × RawSettings)) : Bool :=
  devices.all fun p =>
    p.2.pwm.isSome && p.2.temp.isSome && p.2.fan.isSome &&
    match p.2.limits with
    | none => false
    | some L =>
      L.st.isSome && decide (2 ≤ (L.st.getD []).length) &&
      L.temp.isSome && decide (2 ≤ (L.temp.getD []).length) &&
      L.pwm.isSome && decide (2 ≤ (L.pwm.getD []).length)

/-- The live channel-file facts consulted by `find_hwmon_file`:
`fs devpath hwmon hwmonType channel = true` iff the glob
`/sys/{devpath}/hwmon/{hwmon}/{hwmonType}{channel}_*` matches at least one
file. -/
def FanFS := String → String → String → Nat → Bool

/-- fanctl.py:248 `find_hwmon_file`: glob-existence check, answered by the
external filesystem model. -/
def find_hwmon_file (fs : FanFS) (path hwmon : String) (hwmonType : String)
    (monId : Nat) : Bool :=
  fs path hwmon hwmonType monId

/-- fanctl.py:269 `assert_hwmon_file`. -/
def assert_hwmon_file (fs : FanFS) (dev : DriverEntry) (hwmonType : String)
    (hwmonId : Nat) : Bool :=
  find_hwmon_file fs dev.devpath dev.hwmon hwmonType hwmonId

/-- The inner loop `for hwmon_type in ["pwm", "fan", "temp"]` of
`generate_mapping` (fanctl.py:304-312): look up the channel number
(KeyError if the key is absent), then check the channel file exists, raising
the hardware-mismatch error (bare `FileNotFoundError`, identified by the
logged device/channel) on the first missing one. -/
def checkTypes (fs : FanFS) (device : String) (dev : DriverEntry)
    (settings : RawSettings) : List String → Except PyErr Unit
  | [] => .ok ()
  | t :: rest => do
    let hid ← pyGet (settings.chan t)
    if assert_hwmon_file fs dev t hid then checkTypes fs device dev settings rest
    else .error (.hardwareMismatch device dev.hwmon t hid)

/-- One iteration of the outer loop of `generate_mapping` (fanctl.py:299-316):
devices absent from the live scan are skipped; present ones have their three
channel files checked and are then added with the attached hwmon record. -/
def resolveStep (fs : FanFS) (paths : List (String × DriverEntry))
    (config : List (String × Resolved)) (device : String)
    (settings : RawSettings) : Except PyErr (List (String × Resolved)) :=
  match alookup device paths with
  | none => .ok config
  | some dev => do
    checkTypes fs device dev settings ["pwm", "fan", "temp"]
    .ok (dictUpdate config device ⟨settings, ⟨dev.devpath, dev.hwmon⟩⟩)

/-- The resolution loop of `generate_mapping` over all declared devices. -/
def resolveAll (fs : FanFS) (paths : List (String × DriverEntry))
    (conf : List (String × RawSettings)) : Except PyErr (List (String × Resolved)) :=
  conf.foldlM (fun config p => resolveStep fs paths config p.1 p.2) []

/-- Outcome of `generate_mapping` as observed by `__main__`:
`exitNow` models the `exit(1)` at fanctl.py:292 (a `SystemExit`, which the
`except Exception` in `__main__` does not catch), `raised` models any other
exception escaping `generate_mapping` (caught at fanctl.py:395). -/
inductive GenOutcome where
  | exitNow (code : Int)
  | raised (e : PyErr)
  | ok (config : List (String × Resolved))
deriving Repr, DecidableEq

/-- The external state of one fanctl run.  `conf` is the parsed `devices`
mapping of the intent file (fanctl reads it with yaml.safe_load; we model a
parseable file).  `fcconf` is the content of the persisted artifact
/etc/fancontrol split into lines, `none` when the file does not exist.
`argF` is the `-f` argument (`none` when not given).  `writable` tells
whether opening the write destination of this run succeeds (the destination
is `-f`'s path, or /etc/fancontrol when `-f` is absent). -/
structure World where
  configFileExists : Bool
  conf : List (String × RawSettings)
  entries : List HwmonEntry
  fs : FanFS
  fcconf : Option (List String)
  argF : Option String
  writable : Bool

/-- fanctl.py:285 `generate_mapping`: parse the config (missing file: logged
and `exit(1)`; invalid structure: `Exception` raised out of the function),
scan the hardware, and resolve every declared device against the scan. -/
def generate_mapping (w : World) : GenOutcome :=
  if w.configFileExists then
    if validate_config w.conf then
      match resolveAll w.fs (hwmon_detect w.entries) w.conf with
      | .ok m => .ok m
      | .error e => .raised e
    else .raised .configInvalid
  else .exitNow 1

/-- fanctl.py:66 `_generate_devpath` (total: the hwmon record is always
present on a `Resolved`). -/
def _generate_devpath (devices : List (String × Resolved)) : String :=
  devices.foldl
    (fun acc p => acc ++ (p.2.hwmon.id ++ "=" ++ p.2.hwmon.devpath ++ " "))
    "DEVPATH="

/-- fanctl.py:49 `_generate_devname`. -/
def _generate_devname (devices : List (String × Resolved)) : String :=
  devices.foldl
    (fun acc p => acc ++ (p.2.hwmon.id ++ "=" ++ p.1 ++ " "))
    "DEVNAME="

/-- fanctl.py:84 `_generate_fctemps` (dict accesses can raise KeyError). -/
def _generate_fctemps (devices : List (String × Resolved)) : Except PyErr String :=
  devices.foldlM
    (fun acc p => do
      let hwmon := p.2.hwmon.id
      let pwm ← pyGet p.2.settings.pwm
      let temp ← pyGet p.2.settings.temp
      pure (acc ++ (hwmon ++ "/pwm" ++ Nat.repr pwm ++ "=" ++ hwmon ++ "/temp" ++
        Nat.repr temp ++ "_input ")))
    "FCTEMPS="

/-- fanctl.py:103 `_generate_fcfans`. -/
def _generate_fcfans (devices : List (String × Resolved)) : Except PyErr String :=
  devices.foldlM
    (fun acc p => do
      let hwmon := p.2.hwmon.id
      let pwm ← pyGet p.2.settings.pwm
      let fan ← pyGet p.2.settings.fan
      pure (acc ++ (hwmon ++ "/pwm" ++ Nat.repr pwm ++ "=" ++ hwmon ++ "/fan" ++
        Nat.repr fan ++ "_input ")))
    "FCFANS="

/-- Shared body of the three limit-pair generators (fanctl.py:122, 144, 166):
fold two accumulator strings over the devices, reading the given limit list
of each device and appending `lim[0]` to the first and `lim[1]` to the
second accumulator. -/
def limitsFold (which : RawLimits → Option (List Int))
    (init : String × String) (devices : List (String × Resolved)) :
    Except PyErr (String × String) :=
  devices.foldlM
    (fun acc p => do
      let hwmon := p.2.hwmon.id
      let pwm ← pyGet p.2.settings.pwm
      let lims ← pyGet p.2.settings.limits
      let lim ← pyGet (which lims)
      let lo ← pyIdx lim 0
      let hi ← pyIdx lim 1
      pure (acc.1 ++ (hwmon ++ "/pwm" ++ Nat.repr pwm ++ "=" ++ Int.repr lo ++ " "),
            acc.2 ++ (hwmon ++ "/pwm" ++ Nat.repr pwm ++ "=" ++ Int.repr hi ++ " ")))
    init

/-- fanctl.py:122 `_generate_temp_limits`: returns the MINTEMP and MAXTEMP
lines joined with a newline. -/
def _generate_temp_limits (devices : List (String × Resolved)) : Except PyErr String := do
  let r ← limitsFold RawLimits.temp ("MINTEMP=", "MAXTEMP=") devices
  pure (r.1 ++ "\n" ++ r.2)

/-- fanctl.py:144 `_generate_start_limits`: the MINSTART and MINSTOP lines. -/
def _generate_start_limits (devices : List (String × Resolved)) : Except PyErr String := do
  let r ← limitsFold RawLimits.st ("MINSTART=", "MINSTOP=") devices
  pure (r.1 ++ "\n" ++ r.2)

/-- fanctl.py:166 `_generate_pwm_limits`: the MINPWM and MAXPWM lines. -/
def _generate_pwm_limits (devices : List (String × Resolved)) : Except PyErr String := do
  let r ← limitsFold RawLimits.pwm ("MINPWM=", "MAXPWM=") devices
  pure (r.1 ++ "\n" ++ r.2)

/-- The seven strings printed in order by `generate_fc_config`
(fanctl.py:353-359), each one `print` call. -/
def fcPrints (config : List (String × Resolved)) : List (Except PyErr String) :=
  [ .ok (_generate_devpath config),
    .ok (_generate_devname config),
    _generate_fctemps config,
    _generate_fcfans config,
    _generate_temp_limits config,
    _generate_start_limits config,
    _generate_pwm_limits config ]

/-- Run a sequence of `print` calls: each argument is evaluated before
printing, so an exception stops the run with the previously printed strings
already written. -/
def runPrints : List (Except PyErr String) → List String × Option PyErr
  | [] => ([], none)
  | x :: xs =>
    match x with
    | .error e => ([], some e)
    | .ok s =>
      let r := runPrints xs
      (s :: r.1, r.2)

/-- The lines of the written file as later read back by
`read_text().splitlines()`: each printed string is terminated with a newline
by `print` and may itself contain interior newlines (the limit generators). -/
def writtenLines (printed : List String) : List String :=
  printed.flatMap (fun s => (splitOnChar '\n' s.data).map String.mk)

/-- fanctl.py:344 `generate_fc_config`: the lines that reach the output
stream, together with the exception aborting emission midway, if any. -/
def generate_fc_config (config : List (String × Resolved)) :
    List String × Option PyErr :=
  let r := runPrints (fcPrints config)
  (writtenLines r.1, r.2)

/-- The device tokens of a persisted DEVNAME line (fanctl.py:336):
`line.strip("DEVNAME=").split()` — note `strip` removes any of the
characters `D E V N A M =` from both ends, not the literal affix. -/
def devTokens (line : String) : List (List Char) :=
  pyWords (pyStripChars "DEVNAME=" line.data)

/-- The inner loop of `config_invalid` (fanctl.py:337-341): walk the parsed
pairs; `dev.split("=")` must unpack into exactly two parts (ValueError
otherwise); a name absent from the freshly resolved mapping raises KeyError;
a differing hwmon id returns True; surviving every pair returns False. -/
def checkDevs (m : List (String × Resolved)) : List (List Char) → Except PyErr (Option Bool)
  | [] => .ok (some false)
  | d :: rest =>
    match splitOnChar '=' d with
    | [mon, name] =>
      match alookup (String.mk name) m with
      | none => .error .keyError
      | some r =>
        if r.hwmon.id ≠ String.mk mon then .ok (some true)
        else checkDevs m rest
    | _ => .error .valueError

/-- The line scan of `config_invalid` (fanctl.py:333-341): the first line
starting with "DEVNAME" decides; falling off the loop returns Python `None`
(modelled `none`). -/
def ciScan (m : List (String × Resolved)) : List String → Except PyErr (Option Bool)
  | [] => .ok none
  | line :: rest =>
    if pyStartsWith line "DEVNAME" then checkDevs m (devTokens line)
    else ciScan m rest

/-- fanctl.py:321 `config_invalid`: True when no persisted artifact exists;
otherwise decided by the first DEVNAME line, `None` when there is none. -/
def config_invalid (fcconf : Option (List String))
    (m : List (String × Resolved)) : Except PyErr (Option Bool) :=
  match fcconf with
  | none => .ok (some true)
  | some lines => ciScan m lines

/-- Python truthiness of the optional `-f` argument: `None` and the empty
string are falsy. -/
def strTruthy (o : Option String) : Bool :=
  match o with
  | none => false
  | some s => s ≠ ""

/-- The write phase of `__main__` (fanctl.py:404-419): choose the sink
(stdout for `-f -`, otherwise the `-f` path or /etc/fancontrol), then emit.
A failing `open` is an IOError: caught, exit 1, nothing written.  An
exception raised by a generator mid-emission is not an IOError: it escapes,
the interpreter exits with status 1, and the lines already printed stand. -/
def writePhase (w : World) (config : List (String × Resolved)) : Int × List String :=
  if strTruthy w.argF && (w.argF = some "-" : Bool) then
    let r := generate_fc_config config
    (if r.2.isSome then 1 else 0, r.1)
  else
    if w.writable then
      let r := generate_fc_config config
      (if r.2.isSome then 1 else 0, r.1)
    else (1, [])

/-- fanctl.py:364-419 `__main__`: returns the process exit status and the
lines written to the chosen sink.  `exit(-1)` at fanctl.py:397 is modelled
as status -1; an exception escaping `config_invalid` (uncaught anywhere) is
the interpreter's status 1 with nothing written. -/
def main_run (w : World) : Int × List String :=
  match generate_mapping w with
  | .exitNow c => (c, [])
  | .raised _ => (-1, [])
  | .ok config =>
    match config_invalid w.fcconf config with
    | .error _ => (1, [])
    | .ok inval =>
      if inval.getD false = false && !(strTruthy w.argF) then (0, [])
      else writePhase w config

/-! ### Utility lemmas: strings, character lists, words, splitting -/

theorem str_eq_of_data (a b : String) (h : a.data = b.data) : a = b := by
  cases a; cases b; exact congrArg String.mk h

theorem str_data_append (a b : String) : (a ++ b).data = a.data ++ b.data := by
  cases a; cases b; rfl

theorem str_append_empty (a : String) : a ++ "" = a := by
  apply str_eq_of_data; simp [str_data_append]

theorem str_append_assoc (a b c : String) : (a ++ b) ++ c = a ++ (b ++ c) := by
  apply str_eq_of_data
  simp [str_data_append]

theorem foldl_chunks (f : α → String) :
    ∀ (l : List α) (init : String),
      List.foldl (fun acc x => acc ++ f x) init l = init ++ strConcat (l.map f)
  | [], init => by
    show init = init ++ strConcat []
    rw [show strConcat [] = "" from rfl, str_append_empty]
  | x :: l, init => by
    simp only [List.foldl_cons, List.map_cons, strConcat]
    rw [foldl_chunks f l (init ++ f x), str_append_assoc]

theorem foldlM_chunks (step : String → α → Except PyErr String) (f : α → String)
    (l : List α) (hstep : ∀ acc x, x ∈ l → step acc x = .ok (acc ++ f x)) :
    ∀ init : String, List.foldlM step init l = .ok (init ++ strConcat (l.map f)) := by
  induction l with
  | nil =>
    intro init
    show Except.ok init = Except.ok (init ++ strConcat [])
    rw [show strConcat [] = "" from rfl, str_append_empty]
  | cons x l ih =>
    intro init
    rw [List.foldlM_cons, hstep init x (by simp)]
    show List.foldlM step (init ++ f x) l = _
    rw [ih (fun acc y hy => hstep acc y (by simp [hy])) (init ++ f x)]
    simp only [List.map_cons, strConcat]
    rw [str_append_assoc]

theorem foldlM_chunks2 (step : String × String → α → Except PyErr (String × String))
    (f g : α → String) (l : List α)
    (hstep : ∀ acc x, x ∈ l → step acc x = .ok (acc.1 ++ f x, acc.2 ++ g x)) :
    ∀ i1 i2 : String,
      List.foldlM step (i1, i2) l = .ok (i1 ++ strConcat (l.map f), i2 ++ strConcat (l.map g)) := by
  induction l with
  | nil =>
    intro i1 i2
    show Except.ok (i1, i2) = _
    rw [show strConcat ([].map f) = "" from rfl, show strConcat ([].map g) = "" from rfl,
      str_append_empty, str_append_empty]
  | cons x l ih =>
    intro i1 i2
    rw [List.foldlM_cons, hstep (i1, i2) x (by simp)]
    show List.foldlM step (i1 ++ f x, i2 ++ g x) l = _
    rw [ih (fun acc y hy => hstep acc y (by simp [hy])) (i1 ++ f x) (i2 ++ g x)]
    simp only [List.map_cons, strConcat]
    rw [str_append_assoc, str_append_assoc]

theorem strConcat_ends_space (l : List String) (hne : l ≠ [])
    (h : ∀ s ∈ l, ∃ t, s = t ++ " ") : ∃ t, strConcat l = t ++ " " := by
  induction l with
  | nil => exact absurd rfl hne
  | cons x l ih =>
    cases l with
    | nil =>
      obtain ⟨t, ht⟩ := h x (by simp)
      refine ⟨t, ?_⟩
      show x ++ strConcat [] = t ++ " "
      rw [show strConcat [] = "" from rfl, str_append_empty, ht]
    | cons y l2 =>
      obtain ⟨t, ht⟩ := ih (by simp) (fun s hs => h s (by simp [List.mem_cons] at hs ⊢; tauto))
      refine ⟨x ++ t, ?_⟩
      show x ++ strConcat (y :: l2) = (x ++ t) ++ " "
      rw [ht, str_append_assoc]

theorem notin_str_append (c : Char) (a b : String) (ha : c ∉ a.data) (hb : c ∉ b.data) :
    c ∉ (a ++ b).data := by
  rw [str_data_append]
  simp [ha, hb]

theorem notin_strConcat (c : Char) (l : List String) (h : ∀ s ∈ l, c ∉ s.data) :
    c ∉ (strConcat l).data := by
  induction l with
  | nil => simp [strConcat]
  | cons x l ih =>
    simp only [strConcat]
    exact notin_str_append c x _ (h x (by simp))
      (ih (fun s hs => h s (by simp [hs])))

theorem digitChar_ne_newline (d : Nat) : Nat.digitChar d ≠ '\n' := by
  by_cases h : d < 16
  · interval_cases d <;> decide
  · unfold Nat.digitChar
    repeat rw [if_neg (by omega)]
    decide

theorem toDigitsCore_chars (b : Nat) :
    ∀ (fuel n : Nat) (acc : List Char), (∀ c ∈ acc, c ≠ '\n') →
      ∀ c ∈ Nat.toDigitsCore b fuel n acc, c ≠ '\n' := by
  intro fuel
  induction fuel with
  | zero => intro n acc hacc; simpa [Nat.toDigitsCore] using hacc
  | succ fuel ih =>
    intro n acc hacc c hc
    simp only [Nat.toDigitsCore] at hc
    split at hc
    · rcases List.mem_cons.mp hc with h | h
      · subst h; exact digitChar_ne_newline _
      · exact hacc c h
    · refine ih _ _ ?_ c hc
      intro x hx
      rcases List.mem_cons.mp hx with h | h
      · subst h; exact digitChar_ne_newline _
      · exact hacc x h

theorem natRepr_no_newline (n : Nat) : '\n' ∉ (Nat.repr n).data := by
  intro hmem
  exact toDigitsCore_chars 10 (n + 1) n [] (by simp) '\n' hmem rfl

theorem intRepr_no_newline (i : Int) : '\n' ∉ (Int.repr i).data := by
  cases i with
  | ofNat n => exact natRepr_no_newline n
  | negSucc n =>
    show '\n' ∉ ("-" ++ Nat.repr (n + 1)).data
    exact notin_str_append _ _ _ (by decide) (natRepr_no_newline _)

theorem dropWhile_append_all (p : Char → Bool) (l1 l2 : List Char)
    (h : ∀ c ∈ l1, p c = true) : (l1 ++ l2).dropWhile p = l2.dropWhile p := by
  induction l1 with
  | nil => simp
  | cons x l ih =>
    simp only [List.cons_append, List.dropWhile_cons, h x (by simp)]
    exact ih (fun c hc => h c (by simp [hc]))

theorem dropWhile_cons_false (p : Char → Bool) (x : Char) (l : List Char)
    (h : p x = false) : (x :: l).dropWhile p = x :: l := by
  simp [List.dropWhile_cons, h]

theorem pyStripBy_of_clean (p : Char → Bool) (pre w : List Char)
    (hpre : ∀ c ∈ pre, p c = true)
    (hhead : ∃ c0 t, w = c0 :: t ∧ p c0 = false)
    (hlast : ∃ q e, w = q ++ [e] ∧ p e = false) :
    pyStripBy p (pre ++ w) = w := by
  obtain ⟨c0, t, hct, hc0⟩ := hhead
  obtain ⟨q, e, hqe, he⟩ := hlast
  unfold pyStripBy
  rw [dropWhile_append_all p pre _ hpre, hct, dropWhile_cons_false p c0 t hc0, ← hct, hqe]
  rw [List.reverse_append]
  simp only [List.reverse_cons, List.reverse_nil, List.nil_append, List.singleton_append]
  rw [dropWhile_cons_false p e _ he]
  simp

theorem wordsAux_chunk (rest : List Char) :
    ∀ (w cur : List Char), (∀ c ∈ w, c.isWhitespace = false) → (cur ≠ [] ∨ w ≠ []) →
      wordsAux cur (w ++ ' ' :: rest) = (cur.reverse ++ w) :: wordsAux [] rest := by
  intro w
  induction w with
  | nil =>
    intro cur hw hne
    have hcur : cur ≠ [] := by rcases hne with h | h; exact h; exact absurd rfl h
    simp only [List.nil_append, wordsAux]
    rw [if_pos (by decide), if_neg (by simpa [List.isEmpty_iff] using hcur)]
    simp
  | cons c w ih =>
    intro cur hw hne
    have hc : c.isWhitespace = false := hw c (by simp)
    simp only [List.cons_append, wordsAux, List.append_eq]
    rw [if_neg (by simp [hc])]
    have h3 : wordsAux (c :: cur) (w ++ ' ' :: rest) =
        ((c :: cur).reverse ++ w) :: wordsAux [] rest :=
      ih (c :: cur) (fun x hx => hw x (by simp [hx])) (Or.inl (by simp))
    rw [h3]
    simp

theorem pyWords_chunk (w rest : List Char) (hw : ∀ c ∈ w, c.isWhitespace = false)
    (hne : w ≠ []) : pyWords (w ++ ' ' :: rest) = w :: pyWords rest := by
  unfold pyWords
  rw [wordsAux_chunk rest w [] hw (Or.inr hne)]
  simp

theorem splitOnChar_no (c : Char) (l : List Char) (h : c ∉ l) :
    splitOnChar c l = [l] := by
  induction l with
  | nil => rfl
  | cons x l ih =>
    have hx : x ≠ c := by rintro rfl; exact h (by simp)
    simp only [splitOnChar, if_neg hx]
    rw [ih (fun hm => h (by simp [hm]))]

theorem splitOnChar_append (c : Char) (a b : List Char) (h : c ∉ a) :
    splitOnChar c (a ++ c :: b) = a :: splitOnChar c b := by
  induction a with
  | nil => simp [splitOnChar]
  | cons x a ih =>
    have hx : x ≠ c := by rintro rfl; exact h (by simp)
    simp only [List.cons_append, splitOnChar, if_neg hx, List.append_eq]
    have h3 : splitOnChar c (a ++ c :: b) = a :: splitOnChar c b :=
      ih (fun hm => h (by simp [hm]))
    rw [h3]

theorem beginsWith_self_append (p t : List Char) : beginsWith p (p ++ t) = true := by
  induction p with
  | nil => rfl
  | cons c p ih => simp [beginsWith, ih]

theorem beginsWith_false_of_diff (a : List Char) (c d : Char) (r s : List Char)
    (h : c ≠ d) : beginsWith (a ++ c :: r) (a ++ d :: s) = false := by
  induction a with
  | nil => simp [beginsWith, h]
  | cons x a ih => simp [beginsWith, ih]

/-! ### Association-list lemmas -/

theorem alookup_append (d : String) (l1 l2 : List (String × β)) :
    alookup d (l1 ++ l2) =
      match alookup d l1 with
      | some v => some v
      | none => alookup d l2 := by
  induction l1 with
  | nil => simp [alookup]
  | cons x l ih =>
    by_cases h : x.1 = d
    · simp [alookup, h]
    · simp only [List.cons_append, alookup, if_neg h]
      exact ih

theorem any_key_iff (k : String) (l : List (String × β)) :
    (l.any fun p => p.1 = k) = true ↔ k ∈ l.map Prod.fst := by
  simp [List.any_eq_true, List.mem_map]

theorem keys_dictUpdate (l : List (String × β)) (k : String) (v : β) :
    (dictUpdate l k v).map Prod.fst =
      if k ∈ l.map Prod.fst then l.map Prod.fst else l.map Prod.fst ++ [k] := by
  unfold dictUpdate
  by_cases h : k ∈ l.map Prod.fst
  · rw [if_pos ((any_key_iff k l).mpr h), if_pos h, List.map_map]
    apply List.map_congr_left
    intro p hp
    by_cases he : p.1 = k
    · simp [he]
    · simp [he]
  · rw [if_neg (fun hc => h ((any_key_iff k l).mp hc)), if_neg h]
    simp

theorem alookup_eq_none_iff (d : String) (l : List (String × β)) :
    alookup d l = none ↔ d ∉ l.map Prod.fst := by
  induction l with
  | nil => simp [alookup]
  | cons x l ih =>
    by_cases h : x.1 = d
    · simp [alookup, h]
    · simp only [alookup, if_neg h, List.map_cons, List.mem_cons, ih]
      have hne : ¬ d = x.1 := fun he => h he.symm
      simp [hne]

theorem alookup_map_set (d k : String) (v : β) (l : List (String × β))
    (hk : k ∈ l.map Prod.fst) :
    alookup d (l.map fun p => if p.1 = k then (k, v) else p) =
      if d = k then some v else alookup d l := by
  induction l with
  | nil => simp at hk
  | cons x l ih =>
    simp only [List.map_cons]
    by_cases hx : x.1 = k
    · rw [if_pos hx]
      by_cases hd : d = k
      · subst hd; simp [alookup]
      · rw [show alookup d ((k, v) :: l.map fun p => if p.1 = k then (k, v) else p)
            = alookup d (l.map fun p => if p.1 = k then (k, v) else p) by
          show (if k = d then _ else _) = _
          rw [if_neg (fun h : k = d => hd h.symm)]]
        rw [if_neg hd]
        rw [show alookup d (x :: l) = alookup d l by
          show (if x.1 = d then _ else _) = _
          rw [if_neg (fun h : x.1 = d => hd (h.symm.trans hx))]]
        by_cases hkl : k ∈ l.map Prod.fst
        · rw [ih hkl, if_neg hd]
        · have hmap : (l.map fun p => if p.1 = k then (k, v) else p) = l.map id := by
            apply List.map_congr_left
            intro p hp
            have hne : p.1 ≠ k := fun he => hkl (he ▸ List.mem_map_of_mem Prod.fst hp)
            simp [hne]
          rw [hmap, List.map_id]
    · rw [if_neg hx]
      have hkl : k ∈ l.map Prod.fst := by
        rcases List.mem_map.mp hk with ⟨p, hp, he⟩
        rcases List.mem_cons.mp hp with h | h
        · exact absurd (h ▸ he) hx
        · exact List.mem_map.mpr ⟨p, h, he⟩
      by_cases hxd : x.1 = d
      · have hdk : ¬ d = k := fun h => hx (by rw [hxd, h])
        simp [alookup, hxd, hdk]
      · simp only [alookup, if_neg hxd]
        exact ih hkl

theorem alookup_dictUpdate (d k : String) (v : β) (l : List (String × β)) :
    alookup d (dictUpdate l k v) = if d = k then some v else alookup d l := by
  unfold dictUpdate
  by_cases h : k ∈ l.map Prod.fst
  · rw [if_pos ((any_key_iff k l).mpr h)]
    exact alookup_map_set d k v l h
  · rw [if_neg (fun hc => h ((any_key_iff k l).mp hc)), alookup_append]
    by_cases hd : d = k
    · subst hd
      rw [(alookup_eq_none_iff d l).mpr h]
      simp [alookup]
    · cases hl : alookup d l with
      | none =>
        have hkd : ¬ (k = d) := fun he => hd he.symm
        simp [alookup, hkd, if_neg hd]
      | some w => simp [if_neg hd]

theorem alookup_of_mem_nodup (k : String) (v : β) (l : List (String × β))
    (hnd : (l.map Prod.fst).Nodup) (hm : (k, v) ∈ l) : alookup k l = some v := by
  induction l with
  | nil => simp at hm
  | cons x l ih =>
    rcases List.mem_cons.mp hm with h | h
    · subst h
      simp [alookup]
    · have hx : x.1 ≠ k := by
        intro he
        have : k ∈ l.map Prod.fst := List.mem_map.mpr ⟨(k, v), h, rfl⟩
        simp only [List.map_cons, List.nodup_cons] at hnd
        exact hnd.1 (he ▸ this)
      simp only [alookup, if_neg hx]
      exact ih (by simp only [List.map_cons, List.nodup_cons] at hnd; exact hnd.2) h

/-! ### Sorting and enumeration lemmas -/

theorem insertEntry_perm (e : HwmonEntry) (l : List HwmonEntry) :
    (insertEntry e l).Perm (e :: l) := by
  induction l with
  | nil => exact List.Perm.refl _
  | cons x l ih =>
    unfold insertEntry
    by_cases h : strLe e.pname x.pname = true
    · rw [if_pos h]
    · rw [if_neg h]
      exact (ih.cons x).trans (List.Perm.swap e x l)

theorem sortEntries_perm (l : List HwmonEntry) : (sortEntries l).Perm l := by
  induction l with
  | nil => exact List.Perm.refl _
  | cons e l ih =>
    exact (insertEntry_perm e (sortEntries l)).trans (ih.cons e)

/-- The trimmed driver names of the entries exposing a readable name
attribute, in input order. -/
def driverNames (entries : List HwmonEntry) : List String :=
  entries.filterMap (fun e => e.nameAttr.map pyStripStr)

theorem scan_keys (l : List HwmonEntry) :
    ∀ acc : List (String × DriverEntry),
      ((l.foldl scanStep acc).map Prod.fst).toFinset =
        (acc.map Prod.fst).toFinset ∪ (driverNames l).toFinset := by
  induction l with
  | nil => intro acc; simp [driverNames]
  | cons e l ih =>
    intro acc
    rw [List.foldl_cons, ih (scanStep acc e)]
    unfold scanStep
    cases he : e.nameAttr with
    | none => simp [driverNames, List.filterMap_cons, he]
    | some txt =>
      rw [show driverNames (e :: l) = pyStripStr txt :: driverNames l by
        simp [driverNames, List.filterMap_cons, he]]
      rw [keys_dictUpdate]
      by_cases h : pyStripStr txt ∈ acc.map Prod.fst
      · rw [if_pos h]
        ext a
        simp only [Finset.mem_union, List.mem_toFinset, List.mem_cons]
        constructor
        · rintro (ha | ha)
          · exact Or.inl ha
          · exact Or.inr (Or.inr ha)
        · rintro (ha | ha | ha)
          · exact Or.inl ha
          · exact Or.inl (ha ▸ h)
          · exact Or.inr ha
      · rw [if_neg h]
        ext a
        simp only [Finset.mem_union, List.mem_toFinset, List.mem_cons, List.mem_append]
        tauto

theorem scan_nodup (l : List HwmonEntry) :
    ∀ acc : List (String × DriverEntry), ((acc.map Prod.fst)).Nodup →
      ((l.foldl scanStep acc).map Prod.fst).Nodup := by
  induction l with
  | nil => intro acc h; simpa using h
  | cons e l ih =>
    intro acc h
    rw [List.foldl_cons]
    apply ih
    unfold scanStep
    cases he : e.nameAttr with
    | none => exact h
    | some txt =>
      rw [keys_dictUpdate]
      by_cases hm : pyStripStr txt ∈ acc.map Prod.fst
      · rw [if_pos hm]; exact h
      · rw [if_neg hm]
        refine List.Nodup.append h (by simp) ?_
        intro a ha hb
        rw [List.mem_singleton] at hb
        exact hm (hb ▸ ha)

theorem findFirst_append (p : α → Bool) (l1 l2 : List α) :
    (l1 ++ l2).find? p =
      match l1.find? p with
      | some v => some v
      | none => l2.find? p := by
  induction l1 with
  | nil => simp
  | cons x l ih =>
    by_cases h : p x
    · simp [List.find?_cons, h]
    · simp only [List.cons_append, List.find?_cons, if_neg h]
      cases hx : p x
      · exact ih
      · exact absurd hx (by simp [h])

theorem scan_alookup (l : List HwmonEntry) :
    ∀ (acc : List (String × DriverEntry)) (d : String),
      alookup d (l.foldl scanStep acc) =
        match l.reverse.find? (fun e => e.nameAttr.map pyStripStr == some d) with
        | some e => some (mkDriverEntry e)
        | none => alookup d acc := by
  induction l with
  | nil => intro acc d; simp
  | cons e l ih =>
    intro acc d
    rw [List.foldl_cons, ih (scanStep acc e) d, List.reverse_cons, findFirst_append]
    cases hf : l.reverse.find? (fun e => e.nameAttr.map pyStripStr == some d) with
    | some x => rfl
    | none =>
      simp only []
      unfold scanStep
      cases he : e.nameAttr with
      | none => simp [List.find?, he]
      | some txt =>
        rw [alookup_dictUpdate]
        by_cases hd : pyStripStr txt = d
        · rw [if_pos hd.symm]
          simp [List.find?, he, hd]
        · have hbeq : (pyStripStr txt == d) = false := by simp [hd]
          rw [if_neg (fun h : d = pyStripStr txt => hd h.symm)]
          simp [List.find?, he, hbeq]

/-! ### Concrete fixtures used by witnesses and counterexamples -/

/-- A well-formed limits block (spec scenario section 8). -/
def okLimits : RawLimits := ⟨some [50, 150], some [40, 70], some [0, 255]⟩

/-- The declared nct6775 device of the spec scenario. -/
def okSettings : RawSettings := ⟨some 1, some 1, some 1, some okLimits⟩

/-- The live nct6775 hwmon directory entry of the spec scenario. -/
def eNct : HwmonEntry :=
  ⟨"hwmon2", some "nct6775\n",
    ["/", "sys", "devices", "pci0000:00", "0000:00:18.3", "hwmon", "hwmon2"]⟩

/-- A filesystem on which every channel file exists. -/
def allFS : FanFS := fun _ _ _ _ => true

/-- A filesystem on which exactly the fan channel files are missing. -/
def noFanFS : FanFS := fun _ _ t _ => !(t == "fan")

/-- The hwmon record resolution attaches to the scenario device. -/
def nctRef : HwmonRef := ⟨"devices/pci0000:00/0000:00:18.3", "hwmon2"⟩

/-- The resolved mapping of the spec scenario. -/
def m0 : List (String × Resolved) := [("nct6775", ⟨okSettings, nctRef⟩)]

/-- The spec scenario world: valid config, device present, all files exist. -/
def w0 : World := ⟨true, [("nct6775", okSettings)], [eNct], allFS, none, none, true⟩

/-- Scenario world with the fan channel file absent. -/
def wMismatch : World := ⟨true, [("nct6775", okSettings)], [eNct], noFanFS, none, none, true⟩

/-- A world whose intent config is structurally invalid (pwm key missing). -/
def wBadConf : World :=
  ⟨true, [("cpu", ⟨none, some 1, some 1, some okLimits⟩)], [eNct], allFS, none, none, true⟩

/-- A world whose intent config file does not exist. -/
def wNoConf : World := ⟨false, [], [], allFS, none, none, true⟩

/-- Scenario world with `-f -` given and a persisted artifact whose DEVNAME
line names a device absent from the current resolution. -/
def wGhost : World :=
  ⟨true, [("nct6775", okSettings)], [eNct], allFS, some ["DEVNAME=hwmon9=ghost "],
    some "-", true⟩

/-- Scenario world whose persisted artifact has no DEVNAME line. -/
def wNoDevname : World := ⟨true, [("nct6775", okSettings)], [eNct], allFS, some ["FOO=1"], none, true⟩

/-- Two live entries reporting the same driver name (after trimming), plus one
with no readable name attribute. -/
def eDupA : HwmonEntry := ⟨"hwmon1", some "k10temp", ["/", "sys", "devices", "a", "b", "hwmon", "hwmon1"]⟩

/-- Later duplicate (sorted after `eDupA`), name needing a trim. -/
def eDupB : HwmonEntry := ⟨"hwmon3", some " k10temp ", ["/", "sys", "devices", "c", "d", "hwmon", "hwmon3"]⟩

/-- An entry with no readable name attribute. -/
def eNoName : HwmonEntry := ⟨"hwmon0", none, ["/", "sys", "devices", "x", "y", "hwmon", "hwmon0"]⟩

/-! ### Claim C6: the hardware enumerator -/

/-- Claim C6: for every live scan, `hwmon_detect` returns a mapping whose key
set is exactly the set of distinct trimmed driver names among entries with a
readable name attribute, whose size is the number of such distinct names;
nameless entries are skipped, an empty tree gives an empty mapping, and among
entries sharing a trimmed driver name the one latest in sorted monitor-handle
order provides the recorded entry (silent overwrite). -/
theorem hwmon_detect_characterization (entries : List HwmonEntry) :
    ((hwmon_detect entries).map Prod.fst).toFinset = (driverNames entries).toFinset
    ∧ (hwmon_detect entries).length = (driverNames entries).dedup.length
    ∧ hwmon_detect [] = []
    ∧ ((∀ e ∈ entries, e.nameAttr = none) → hwmon_detect entries = [])
    ∧ ∀ d, alookup d (hwmon_detect entries) =
        ((sortEntries entries).reverse.find?
          (fun e => e.nameAttr.map pyStripStr == some d)).map mkDriverEntry := by
  have hperm : (driverNames (sortEntries entries)).Perm (driverNames entries) :=
    (sortEntries_perm entries).filterMap _
  have htf : (driverNames (sortEntries entries)).toFinset =
      (driverNames entries).toFinset := by
    ext a
    simp only [List.mem_toFinset]
    exact hperm.mem_iff
  have hkeys : ((hwmon_detect entries).map Prod.fst).toFinset =
      (driverNames entries).toFinset := by
    unfold hwmon_detect
    rw [scan_keys (sortEntries entries) [], htf]
    simp
  refine ⟨hkeys, ?_, rfl, ?_, ?_⟩
  · have hnd : ((hwmon_detect entries).map Prod.fst).Nodup :=
      scan_nodup (sortEntries entries) [] (by simp)
    have h1 : (hwmon_detect entries).length =
        ((hwmon_detect entries).map Prod.fst).length := by
      rw [List.length_map]
    rw [h1, ← List.toFinset_card_of_nodup hnd, hkeys, List.card_toFinset]
  · intro hall
    have hnames : driverNames entries = [] := by
      unfold driverNames
      rw [List.filterMap_eq_nil_iff]
      intro e he
      rw [hall e he]
      rfl
    have hnd : ((hwmon_detect entries).map Prod.fst).Nodup :=
      scan_nodup (sortEntries entries) [] (by simp)
    have h1 : (hwmon_detect entries).length =
        ((hwmon_detect entries).map Prod.fst).length := by
      rw [List.length_map]
    have hlen : (hwmon_detect entries).length = 0 := by
      rw [h1, ← List.toFinset_card_of_nodup hnd, hkeys, List.card_toFinset, hnames]
      rfl
    exact List.length_eq_zero.mp hlen
  · intro d
    unfold hwmon_detect
    rw [scan_alookup (sortEntries entries) [] d]
    cases hf : (sortEntries entries).reverse.find?
        (fun e => e.nameAttr.map pyStripStr == some d) with
    | some e => rfl
    | none => rfl

/-- Claim C6 witness: on a concrete scan with a duplicate driver name (one
needing a trim), a nameless entry, and an unsorted input order, the mapping
has exactly one key and records the entry with the greater monitor handle;
the nameless-only scan is empty. -/
theorem hwmon_detect_characterization_witness :
    (hwmon_detect [eDupB, eNoName, eDupA]).length = 1
    ∧ alookup "k10temp" (hwmon_detect [eDupB, eNoName, eDupA]) =
        some ⟨"devices/c/d", "hwmon3"⟩
    ∧ hwmon_detect [eNoName] = [] := by
  have h := hwmon_detect_characterization [eDupB, eNoName, eDupA]
  have h2 := hwmon_detect_characterization [eNoName]
  refine ⟨?_, ?_, ?_⟩
  · rw [h.2.1]; decide
  · rw [h.2.2.2.2 "k10temp"]; rfl
  · exact h2.2.2.2.1 (by decide)

/-! ### Claim C4: structural validation -/

/-- The property `validate_config` checks for one device: every one of the
four keys present, and every limit list present with at least two values. -/
def goodSettings (s : RawSettings) : Prop :=
  s.pwm.isSome = true ∧ s.temp.isSome = true ∧ s.fan.isSome = true ∧
  ∃ L, s.limits = some L ∧
    (∃ a, L.st = some a ∧ 2 ≤ a.length) ∧
    (∃ a, L.temp = some a ∧ 2 ≤ a.length) ∧
    (∃ a, L.pwm = some a ∧ 2 ≤ a.length)

theorem validate_config_iff (conf : List (String × RawSettings)) :
    validate_config conf = true ↔ ∀ p ∈ conf, goodSettings p.2 := by
  unfold validate_config
  rw [List.all_eq_true]
  apply forall_congr'
  intro p
  constructor
  · intro h hp
    have hb := h hp
    obtain ⟨nm, pw, tp, fn, lim⟩ := p
    cases lim with
    | none => simp at hb
    | some L =>
      obtain ⟨lst, ltp, lpw⟩ := L
      cases lst <;> cases ltp <;> cases lpw <;> simp_all [goodSettings]
  · intro h hp
    have hg := h hp
    obtain ⟨nm, pw, tp, fn, lim⟩ := p
    cases lim with
    | none => simp [goodSettings] at hg
    | some L =>
      obtain ⟨lst, ltp, lpw⟩ := L
      cases lst <;> cases ltp <;> cases lpw <;> simp_all [goodSettings]

/-- A device whose st limit pair holds three values (everything else valid). -/
def threeValSettings : RawSettings :=
  ⟨some 1, some 1, some 1, some ⟨some [0, 128, 255], some [40, 70], some [0, 255]⟩⟩

/-- Claim C4 counterexample: the claim says a limit pair that does not have
exactly two values is rejected, but `validate_config` only rejects pairs
with fewer than two values: a three-value st pair passes validation. -/
theorem validate_config_accepts_three_values :
    validate_config [("cpu", threeValSettings)] = true
    ∧ ∃ L a, threeValSettings.limits = some L ∧ L.st = some a ∧ a.length ≠ 2 := by
  refine ⟨by decide, ⟨_, _, rfl, rfl, by decide⟩⟩

/-- Claim C4 (amended): structural validation rejects the intent file
wholesale whenever any declared device is missing one of pwm, temp, fan or
limits, or is missing one of the st, temp, pwm limit pairs, or has a limit
pair with FEWER than two values (pairs with extra values are accepted); the
verdict is a pure function of the configuration: an invalid configuration
makes the run exit -1 with nothing written, for every hardware state, every
artifact state and every argument vector, before any filesystem access. -/
theorem validate_config_spec (conf : List (String × RawSettings)) :
    (validate_config conf = true ↔ ∀ p ∈ conf, goodSettings p.2)
    ∧ (∀ w : World, w.conf = conf → w.configFileExists = true →
        validate_config conf = false → main_run w = (-1, [])) := by
  refine ⟨validate_config_iff conf, ?_⟩
  intro w hconf hex hval
  unfold main_run generate_mapping
  rw [hex, hconf, hval]
  simp

/-- Claim C4 witness: the invalid-config world exits -1 with nothing
written, and a config missing the pwm key is indeed rejected. -/
theorem validate_config_spec_witness :
    main_run wBadConf = (-1, []) ∧ validate_config wBadConf.conf = false :=
  ⟨(validate_config_spec wBadConf.conf).2 wBadConf rfl rfl (by decide), by decide⟩

/-! ### Resolution lemmas -/

theorem pyGet_some (a : α) : pyGet (some a) = Except.ok a := rfl

theorem pyGet_none : pyGet (none : Option α) = Except.error PyErr.keyError := rfl

theorem exbind_ok (a : α) (k : α → Except PyErr γ) : (Except.ok a >>= k) = k a := rfl

theorem exbind_err (e : PyErr) (k : α → Except PyErr γ) :
    (Except.error e >>= k : Except PyErr γ) = Except.error e := rfl

theorem goodSettings_chan (s : RawSettings) (h : goodSettings s) :
    ∀ t ∈ ["pwm", "fan", "temp"], (s.chan t).isSome = true := by
  intro t ht
  simp only [List.mem_cons, List.mem_singleton] at ht
  rcases ht with rfl | rfl | rfl | hf
  · exact h.1
  · exact h.2.2.1
  · exact h.2.1
  · simp at hf

theorem checkTypes_ok (fs : FanFS) (device : String) (dev : DriverEntry)
    (settings : RawSettings) (ts : List String)
    (hsome : ∀ t ∈ ts, (settings.chan t).isSome = true)
    (hfs : ∀ t ∈ ts, ∀ ch, settings.chan t = some ch →
      fs dev.devpath dev.hwmon t ch = true) :
    checkTypes fs device dev settings ts = .ok () := by
  induction ts with
  | nil => rfl
  | cons t ts ih =>
    obtain ⟨ch, hch⟩ := Option.isSome_iff_exists.mp (hsome t (by simp))
    show (pyGet (settings.chan t) >>= fun hid =>
      if assert_hwmon_file fs dev t hid then checkTypes fs device dev settings ts
      else .error (.hardwareMismatch device dev.hwmon t hid)) = _
    rw [hch, pyGet_some, exbind_ok]
    rw [show assert_hwmon_file fs dev t ch = true from hfs t (by simp) ch hch]
    simp only [if_true]
    exact ih (fun u hu => hsome u (by simp [hu])) (fun u hu => hfs u (by simp [hu]))

theorem checkTypes_ok_implies (fs : FanFS) (device : String) (dev : DriverEntry)
    (settings : RawSettings) (ts : List String)
    (h : checkTypes fs device dev settings ts = .ok ()) :
    ∀ t ∈ ts, ∀ ch, settings.chan t = some ch → fs dev.devpath dev.hwmon t ch = true := by
  induction ts with
  | nil => simp
  | cons t ts ih =>
    rw [show checkTypes fs device dev settings (t :: ts) =
      (pyGet (settings.chan t) >>= fun hid =>
        if assert_hwmon_file fs dev t hid then checkTypes fs device dev settings ts
        else .error (.hardwareMismatch device dev.hwmon t hid)) from rfl] at h
    intro u hu ch hch
    cases hc : settings.chan t with
    | none => rw [hc, pyGet_none, exbind_err] at h; exact absurd h (by simp)
    | some c =>
      rw [hc, pyGet_some, exbind_ok] at h
      by_cases hfs : assert_hwmon_file fs dev t c = true
      · rw [hfs] at h
        simp only [if_true] at h
        rcases List.mem_cons.mp hu with rfl | hu2
        · rw [hc] at hch
          exact Option.some_injective _ hch ▸ hfs
        · exact ih h u hu2 ch hch
      · rw [Bool.not_eq_true] at hfs
        rw [hfs] at h
        simp at h
  -- no fallthrough

theorem checkTypes_error (fs : FanFS) (device : String) (dev : DriverEntry)
    (settings : RawSettings) (ts : List String)
    (hsome : ∀ t ∈ ts, (settings.chan t).isSome = true) (e : PyErr)
    (he : checkTypes fs device dev settings ts = .error e) :
    ∃ t ch, e = .hardwareMismatch device dev.hwmon t ch ∧ t ∈ ts ∧
      settings.chan t = some ch ∧ fs dev.devpath dev.hwmon t ch = false := by
  induction ts with
  | nil => exact absurd he (by simp [checkTypes])
  | cons t ts ih =>
    obtain ⟨ch, hch⟩ := Option.isSome_iff_exists.mp (hsome t (by simp))
    rw [show checkTypes fs device dev settings (t :: ts) =
      (pyGet (settings.chan t) >>= fun hid =>
        if assert_hwmon_file fs dev t hid then checkTypes fs device dev settings ts
        else .error (.hardwareMismatch device dev.hwmon t hid)) from rfl] at he
    rw [hch, pyGet_some, exbind_ok] at he
    by_cases hfs : assert_hwmon_file fs dev t ch = true
    · rw [hfs] at he
      simp only [if_true] at he
      obtain ⟨u, c2, hec, hu, hc2, hf2⟩ :=
        ih (fun u hu => hsome u (by simp [hu])) he
      exact ⟨u, c2, hec, by simp [hu], hc2, hf2⟩
    · rw [Bool.not_eq_true] at hfs
      rw [hfs] at he
      simp only [Bool.false_eq_true, if_false] at he
      refine ⟨t, ch, ?_, by simp, hch, hfs⟩
      exact (Except.error.injEq _ _).mp he.symm |>.symm ▸ rfl

/-- The per-device resolution function `generate_mapping` computes: `none`
when the declared device is absent from the live scan, otherwise the
declared settings with the scan's hwmon record attached. -/
def resolveF (paths : List (String × DriverEntry)) (p : String × RawSettings) :
    Option (String × Resolved) :=
  (alookup p.1 paths).map (fun dev => (p.1, ⟨p.2, ⟨dev.devpath, dev.hwmon⟩⟩))

theorem dictUpdate_append (l : List (String × β)) (k : String) (v : β)
    (h : k ∉ l.map Prod.fst) : dictUpdate l k v = l ++ [(k, v)] := by
  unfold dictUpdate
  rw [if_neg (fun hc => h ((any_key_iff k l).mp hc))]

theorem resolveStep_eq (fs : FanFS) (paths : List (String × DriverEntry))
    (config : List (String × Resolved)) (device : String) (settings : RawSettings) :
    resolveStep fs paths config device settings =
      match alookup device paths with
      | none => .ok config
      | some dev =>
        checkTypes fs device dev settings ["pwm", "fan", "temp"] >>= fun _ =>
          .ok (dictUpdate config device ⟨settings, ⟨dev.devpath, dev.hwmon⟩⟩) := rfl

theorem resolveAll_aux (fs : FanFS) (paths : List (String × DriverEntry)) :
    ∀ (conf : List (String × RawSettings)) (acc : List (String × Resolved)),
      (∀ p ∈ conf, goodSettings p.2) →
      (∀ p ∈ conf, ∀ dev, alookup p.1 paths = some dev →
        ∀ t ∈ ["pwm", "fan", "temp"], ∀ ch, p.2.chan t = some ch →
          fs dev.devpath dev.hwmon t ch = true) →
      (∀ p ∈ conf, p.1 ∉ acc.map Prod.fst) →
      (conf.map Prod.fst).Nodup →
      List.foldlM (fun config p => resolveStep fs paths config p.1 p.2) acc conf
        = .ok (acc ++ conf.filterMap (resolveF paths)) := by
  intro conf
  induction conf with
  | nil =>
    intro acc _ _ _ _
    show Except.ok acc = _
    simp
  | cons p conf ih =>
    intro acc hgood hfs hdisj hnd
    rw [List.foldlM_cons, resolveStep_eq]
    cases hlk : alookup p.1 paths with
    | none =>
      show (Except.ok acc >>= fun config =>
        List.foldlM (fun config q => resolveStep fs paths config q.1 q.2) config conf) = _
      rw [exbind_ok]
      rw [ih acc (fun q hq => hgood q (by simp [hq]))
        (fun q hq => hfs q (by simp [hq]))
        (fun q hq => hdisj q (by simp [hq]))
        (by simp only [List.map_cons, List.nodup_cons] at hnd; exact hnd.2)]
      simp [List.filterMap_cons, resolveF, hlk]
    | some dev =>
      have hok : checkTypes fs p.1 dev p.2 ["pwm", "fan", "temp"] = .ok () :=
        checkTypes_ok fs p.1 dev p.2 _
          (goodSettings_chan p.2 (hgood p (by simp)))
          (fun t ht ch hch => hfs p (by simp) dev hlk t ht ch hch)
      show ((checkTypes fs p.1 dev p.2 ["pwm", "fan", "temp"] >>= fun _ =>
          Except.ok (dictUpdate acc p.1 ⟨p.2, ⟨dev.devpath, dev.hwmon⟩⟩)) >>= fun config =>
        List.foldlM (fun config q => resolveStep fs paths config q.1 q.2) config conf) = _
      rw [hok, exbind_ok, exbind_ok]
      rw [dictUpdate_append acc p.1 _ (hdisj p (by simp))]
      have hnd2 : (conf.map Prod.fst).Nodup := by
        simp only [List.map_cons, List.nodup_cons] at hnd; exact hnd.2
      have hp1 : p.1 ∉ conf.map Prod.fst := by
        simp only [List.map_cons, List.nodup_cons] at hnd; exact hnd.1
      have hih := ih (acc ++ [(p.1, (⟨p.2, ⟨dev.devpath, dev.hwmon⟩⟩ : Resolved))])
        (fun q hq => hgood q (by simp [hq]))
        (fun q hq => hfs q (by simp [hq]))
        (fun q hq => by
          simp only [List.map_append, List.mem_append]
          rintro (hin | hin)
          · exact hdisj q (by simp [hq]) hin
          · simp only [List.map_cons, List.map_nil, List.mem_singleton] at hin
            exact hp1 (hin ▸ List.mem_map_of_mem Prod.fst hq))
        hnd2
      rw [hih]
      simp [List.filterMap_cons, resolveF, hlk, List.append_assoc]

theorem filterMap_resolveF_keys (paths : List (String × DriverEntry))
    (conf : List (String × RawSettings)) :
    (conf.filterMap (resolveF paths)).map Prod.fst =
      (conf.map Prod.fst).filter (fun d => (alookup d paths).isSome) := by
  induction conf with
  | nil => rfl
  | cons p conf ih =>
    cases hlk : alookup p.1 paths with
    | none => simp [List.filterMap_cons, resolveF, hlk, List.filter_cons, ih]
    | some dev => simp [List.filterMap_cons, resolveF, hlk, List.filter_cons, ih]

/-! ### Claim C1: resolution on fully present hardware -/

/-- Scenario world declaring one device present in the scan and one device
("ghostchip") absent from it. -/
def w1 : World :=
  ⟨true, [("nct6775", okSettings), ("ghostchip", okSettings)], [eNct], allFS, none, none, true⟩

/-- Claim C1: for every structurally valid intent config (with its device
names unique, as YAML mapping keys are) and every live scan on which each
declared-and-present device has all its channel files, `generate_mapping`
succeeds and returns exactly the declared devices whose driver name is in
the live mapping, each resolved with the scan's hwmon record; declared
devices absent from the scan produce no entry and no error. -/
theorem generate_mapping_resolves (w : World)
    (hex : w.configFileExists = true)
    (hval : validate_config w.conf = true)
    (hnd : (w.conf.map Prod.fst).Nodup)
    (hfs : ∀ p ∈ w.conf, ∀ dev, alookup p.1 (hwmon_detect w.entries) = some dev →
      ∀ t ∈ ["pwm", "fan", "temp"], ∀ ch, p.2.chan t = some ch →
        w.fs dev.devpath dev.hwmon t ch = true) :
    generate_mapping w = .ok (w.conf.filterMap (resolveF (hwmon_detect w.entries)))
    ∧ (w.conf.filterMap (resolveF (hwmon_detect w.entries))).map Prod.fst =
        (w.conf.map Prod.fst).filter (fun d => (alookup d (hwmon_detect w.entries)).isSome)
    ∧ (∀ p ∈ w.conf, (alookup p.1 (hwmon_detect w.entries)).isSome →
        ((w.conf.filterMap (resolveF (hwmon_detect w.entries))).map Prod.fst).count p.1 = 1)
    ∧ ∀ p ∈ w.conf, alookup p.1 (hwmon_detect w.entries) = none →
        p.1 ∉ (w.conf.filterMap (resolveF (hwmon_detect w.entries))).map Prod.fst := by
  have hkeys := filterMap_resolveF_keys (hwmon_detect w.entries) w.conf
  have hgood := (validate_config_iff w.conf).mp hval
  refine ⟨?_, hkeys, ?_, ?_⟩
  · unfold generate_mapping
    rw [hex, hval]
    simp only [if_true]
    rw [show resolveAll w.fs (hwmon_detect w.entries) w.conf =
      List.foldlM (fun config p => resolveStep w.fs (hwmon_detect w.entries) config p.1 p.2)
        [] w.conf from rfl]
    rw [resolveAll_aux w.fs (hwmon_detect w.entries) w.conf [] hgood hfs
      (fun p _ => by simp) hnd]
    rfl
  · intro p hp hsome
    rw [hkeys]
    have hndf : ((w.conf.map Prod.fst).filter
        (fun d => (alookup d (hwmon_detect w.entries)).isSome)).Nodup :=
      List.Nodup.filter _ hnd
    refine List.count_eq_one_of_mem hndf ?_
    rw [List.mem_filter]
    exact ⟨List.mem_map_of_mem Prod.fst hp, hsome⟩
  · intro p hp hnone hmem
    rw [hkeys, List.mem_filter] at hmem
    rw [hnone] at hmem
    exact absurd hmem.2 (by simp)

/-- Claim C1 witness: in the two-device world, resolution returns exactly the
present device (resolved to hwmon2) and silently omits "ghostchip". -/
theorem generate_mapping_resolves_witness :
    generate_mapping w1 = .ok m0
    ∧ "ghostchip" ∉ (w1.conf.filterMap (resolveF (hwmon_detect w1.entries))).map Prod.fst := by
  have h := generate_mapping_resolves w1 rfl (by decide) (by decide)
    (fun p hp dev hdev t ht ch hch => rfl)
  exact ⟨h.1.trans (by rfl), h.2.2.2 ("ghostchip", okSettings) (by decide) (by decide)⟩

/-! ### Claim C2: hardware mismatch is a whole-run failure -/

theorem resolveAll_fails (fs : FanFS) (paths : List (String × DriverEntry)) :
    ∀ (conf : List (String × RawSettings)) (acc : List (String × Resolved)),
      (∀ p ∈ conf, goodSettings p.2) →
      (∃ p ∈ conf, ∃ dev, alookup p.1 paths = some dev ∧
        ∃ t ∈ ["pwm", "fan", "temp"], ∃ ch, p.2.chan t = some ch ∧
          fs dev.devpath dev.hwmon t ch = false) →
      ∃ d hw t ch,
        List.foldlM (fun config p => resolveStep fs paths config p.1 p.2) acc conf
          = .error (.hardwareMismatch d hw t ch)
        ∧ ∃ s dev, (d, s) ∈ conf ∧ alookup d paths = some dev ∧ dev.hwmon = hw ∧
            s.chan t = some ch ∧ fs dev.devpath hw t ch = false := by
  intro conf
  induction conf with
  | nil =>
    intro acc _ hbad
    obtain ⟨p, hp, _⟩ := hbad
    simp at hp
  | cons p conf ih =>
    intro acc hgood hbad
    rw [List.foldlM_cons, resolveStep_eq]
    cases hlk : alookup p.1 paths with
    | none =>
      show ∃ d hw t ch, (Except.ok acc >>= fun config =>
        List.foldlM (fun config q => resolveStep fs paths config q.1 q.2) config conf)
          = .error (.hardwareMismatch d hw t ch) ∧ _
      rw [exbind_ok]
      obtain ⟨q, hq, dev, hdev, hrest⟩ := hbad
      rcases List.mem_cons.mp hq with rfl | hq2
      · exact absurd hdev (by simp [hlk])
      · obtain ⟨d, hw, t, ch, he, s, dev2, hm, hrest2⟩ :=
          ih acc (fun r hr => hgood r (by simp [hr])) ⟨q, hq2, dev, hdev, hrest⟩
        exact ⟨d, hw, t, ch, he, s, dev2, by simp [hm], hrest2⟩
    | some dev =>
      cases hct : checkTypes fs p.1 dev p.2 ["pwm", "fan", "temp"] with
      | error e =>
        obtain ⟨t, ch, hec, ht, hch, hf⟩ := checkTypes_error fs p.1 dev p.2 _
          (goodSettings_chan p.2 (hgood p (by simp))) e hct
        refine ⟨p.1, dev.hwmon, t, ch, ?_, p.2, dev, by simp, hlk, rfl, hch, hf⟩
        show ((checkTypes fs p.1 dev p.2 ["pwm", "fan", "temp"] >>= fun _ =>
            Except.ok (dictUpdate acc p.1 ⟨p.2, ⟨dev.devpath, dev.hwmon⟩⟩)) >>= fun config =>
          List.foldlM (fun config q => resolveStep fs paths config q.1 q.2) config conf)
            = _
        rw [hct, exbind_err, exbind_err, hec]
      | ok u =>
        cases u
        obtain ⟨q, hq, dev2, hdev2, t, ht, ch, hch, hf⟩ := hbad
        rcases List.mem_cons.mp hq with rfl | hq2
        · have := checkTypes_ok_implies fs q.1 dev q.2 _ hct t ht ch hch
          rw [hlk] at hdev2
          cases hdev2
          exact absurd this (by simp [hf])
        · obtain ⟨d, hw, t2, ch2, he, s, dev3, hm, hrest2⟩ :=
            ih (dictUpdate acc p.1 ⟨p.2, ⟨dev.devpath, dev.hwmon⟩⟩)
              (fun r hr => hgood r (by simp [hr]))
              ⟨q, hq2, dev2, hdev2, t, ht, ch, hch, hf⟩
          refine ⟨d, hw, t2, ch2, ?_, s, dev3, by simp [hm], hrest2⟩
          show ((checkTypes fs p.1 dev p.2 ["pwm", "fan", "temp"] >>= fun _ =>
              Except.ok (dictUpdate acc p.1 ⟨p.2, ⟨dev.devpath, dev.hwmon⟩⟩)) >>= fun config =>
            List.foldlM (fun config q => resolveStep fs paths config q.1 q.2) config conf)
              = _
          rw [hct, exbind_ok, exbind_ok, he]

/-- Claim C2: when a declared device is present in the live scan but one of
its pwm, fan or temp channel files is missing, the whole run fails: the
mapping raises the hardware-mismatch error (the logged message naming the
missing device and channel, the raised exception a bare FileNotFoundError),
the partial mapping is discarded, the process exits -1 and nothing is
written or emitted for any device. -/
theorem generate_mapping_mismatch (w : World)
    (hex : w.configFileExists = true)
    (hval : validate_config w.conf = true)
    (hbad : ∃ p ∈ w.conf, ∃ dev, alookup p.1 (hwmon_detect w.entries) = some dev ∧
      ∃ t ∈ ["pwm", "fan", "temp"], ∃ ch, p.2.chan t = some ch ∧
        w.fs dev.devpath dev.hwmon t ch = false) :
    (∃ d hw t ch, generate_mapping w = .raised (.hardwareMismatch d hw t ch)
      ∧ ∃ s dev, (d, s) ∈ w.conf ∧ alookup d (hwmon_detect w.entries) = some dev ∧
          dev.hwmon = hw ∧ s.chan t = some ch ∧ w.fs dev.devpath hw t ch = false)
    ∧ main_run w = (-1, []) := by
  have hgood := (validate_config_iff w.conf).mp hval
  obtain ⟨d, hw, t, ch, he, hprops⟩ :=
    resolveAll_fails w.fs (hwmon_detect w.entries) w.conf [] hgood hbad
  have hgen : generate_mapping w = .raised (.hardwareMismatch d hw t ch) := by
    unfold generate_mapping
    rw [hex, hval]
    simp only [if_true]
    rw [show resolveAll w.fs (hwmon_detect w.entries) w.conf =
      List.foldlM (fun config p => resolveStep w.fs (hwmon_detect w.entries) config p.1 p.2)
        [] w.conf from rfl]
    rw [he]
  refine ⟨⟨d, hw, t, ch, hgen, hprops⟩, ?_⟩
  unfold main_run
  rw [hgen]

/-- Claim C2 witness: with the fan channel file absent, the scenario world
raises the mismatch naming nct6775 and the fan channel, exits -1, and emits
nothing. -/
theorem generate_mapping_mismatch_witness :
    main_run wMismatch = (-1, [])
    ∧ ∃ d hw t ch, generate_mapping wMismatch = .raised (.hardwareMismatch d hw t ch) := by
  have h := generate_mapping_mismatch wMismatch rfl (by decide)
    ⟨("nct6775", okSettings), by decide,
      ⟨"devices/pci0000:00/0000:00:18.3", "hwmon2"⟩, by decide,
      "fan", by decide, 1, by decide, by decide⟩
  refine ⟨h.2, ?_⟩
  obtain ⟨d, hw, t, ch, he, _⟩ := h.1
  exact ⟨d, hw, t, ch, he⟩

/-! ### Staleness-checker lemmas -/

/-- The condition under which `checkDevs` passes one persisted pair: it
splits on "=" into exactly a monitor handle and a name, the name resolves in
the current mapping, and the resolved hwmon id equals the handle. -/
def tokMatches (m : List (String × Resolved)) (tok : List Char) : Prop :=
  ∃ mon name r, splitOnChar '=' tok = [mon, name] ∧
    alookup (String.mk name) m = some r ∧ r.hwmon.id = String.mk mon

theorem ciScan_find (m : List (String × Resolved)) (lines : List String) :
    ciScan m lines =
      match lines.find? (fun l => pyStartsWith l "DEVNAME") with
      | none => .ok none
      | some L => checkDevs m (devTokens L) := by
  induction lines with
  | nil => rfl
  | cons line rest ih =>
    unfold ciScan
    cases hs : pyStartsWith line "DEVNAME" with
    | true => simp [List.find?_cons, hs]
    | false => simp [List.find?_cons, hs, ih]

theorem checkDevs_cons_pair (m : List (String × Resolved)) (tok : List Char)
    (toks : List (List Char)) (mon name : List Char)
    (hsplit : splitOnChar '=' tok = [mon, name]) :
    checkDevs m (tok :: toks) =
      match alookup (String.mk name) m with
      | none => .error .keyError
      | some r => if r.hwmon.id ≠ String.mk mon then .ok (some true) else checkDevs m toks := by
  show (match splitOnChar '=' tok with
    | [mon, name] =>
      match alookup (String.mk name) m with
      | none => Except.error PyErr.keyError
      | some r =>
        if r.hwmon.id ≠ String.mk mon then Except.ok (some true) else checkDevs m toks
    | _ => Except.error PyErr.valueError) = _
  rw [hsplit]

theorem checkDevs_cons_found (m : List (String × Resolved)) (tok : List Char)
    (toks : List (List Char)) (mon name : List Char) (r : Resolved)
    (hsplit : splitOnChar '=' tok = [mon, name])
    (hlk : alookup (String.mk name) m = some r) :
    checkDevs m (tok :: toks) =
      if r.hwmon.id ≠ String.mk mon then .ok (some true) else checkDevs m toks := by
  rw [checkDevs_cons_pair m tok toks mon name hsplit, hlk]

theorem checkDevs_cons_missing (m : List (String × Resolved)) (tok : List Char)
    (toks : List (List Char)) (mon name : List Char)
    (hsplit : splitOnChar '=' tok = [mon, name])
    (hlk : alookup (String.mk name) m = none) :
    checkDevs m (tok :: toks) = .error .keyError := by
  rw [checkDevs_cons_pair m tok toks mon name hsplit, hlk]

theorem checkDevs_cons_other (m : List (String × Resolved)) (tok : List Char)
    (toks : List (List Char))
    (h2 : ∀ mon name, splitOnChar '=' tok ≠ [mon, name]) :
    checkDevs m (tok :: toks) = .error .valueError := by
  unfold checkDevs
  rcases hs : splitOnChar '=' tok with _ | ⟨a, _ | ⟨b, _ | ⟨c, l⟩⟩⟩
  · rfl
  · rfl
  · exact absurd hs (h2 a b)
  · rfl

theorem checkDevs_all (m : List (String × Resolved)) (toks : List (List Char))
    (h : ∀ tok ∈ toks, tokMatches m tok) : checkDevs m toks = .ok (some false) := by
  induction toks with
  | nil => rfl
  | cons tok toks ih =>
    obtain ⟨mon, name, r, hsplit, hlk, hid⟩ := h tok (by simp)
    rw [checkDevs_cons_found m tok toks mon name r hsplit hlk, if_neg (by simp [hid])]
    exact ih (fun q hq => h q (by simp [hq]))

theorem checkDevs_false_implies (m : List (String × Resolved)) (toks : List (List Char))
    (h : checkDevs m toks = .ok (some false)) : ∀ tok ∈ toks, tokMatches m tok := by
  induction toks with
  | nil => simp
  | cons tok toks ih =>
    intro q hq
    rcases hsplit : splitOnChar '=' tok with _ | ⟨mon, _ | ⟨name, _ | ⟨c, l⟩⟩⟩
    · rw [checkDevs_cons_other m tok toks (by simp [hsplit])] at h
      exact Except.noConfusion h
    · rw [checkDevs_cons_other m tok toks (by simp [hsplit])] at h
      exact Except.noConfusion h
    · cases hlk : alookup (String.mk name) m with
      | none =>
        rw [checkDevs_cons_missing m tok toks mon name hsplit hlk] at h
        exact Except.noConfusion h
      | some r =>
        rw [checkDevs_cons_found m tok toks mon name r hsplit hlk] at h
        by_cases hid : r.hwmon.id ≠ String.mk mon
        · rw [if_pos hid] at h
          exact absurd ((Except.ok.injEq _ _).mp h) (by simp)
        · rw [if_neg hid] at h
          rcases List.mem_cons.mp hq with rfl | hq2
          · exact ⟨mon, name, r, hsplit, hlk, by simpa using hid⟩
          · exact ih h q hq2
    · rw [checkDevs_cons_other m tok toks (by simp [hsplit])] at h
      exact Except.noConfusion h

theorem checkDevs_prefix_ok (m : List (String × Resolved)) :
    ∀ (pre : List (List Char)) (rest : List (List Char)),
      (∀ q ∈ pre, tokMatches m q) →
      checkDevs m (pre ++ rest) = checkDevs m rest := by
  intro pre
  induction pre with
  | nil => intro rest _; rfl
  | cons tok pre ih =>
    intro rest hpre
    obtain ⟨mon, name, r, hsplit, hlk, hid⟩ := hpre tok (by simp)
    show checkDevs m (tok :: (pre ++ rest)) = _
    rw [checkDevs_cons_found m tok (pre ++ rest) mon name r hsplit hlk,
      if_neg (by simp [hid])]
    exact ih rest (fun q hq => hpre q (by simp [hq]))

theorem checkDevs_keyError (m : List (String × Resolved))
    (pre : List (List Char)) (tok : List Char) (post : List (List Char))
    (mon name : List Char) (hpre : ∀ q ∈ pre, tokMatches m q)
    (hsplit : splitOnChar '=' tok = [mon, name])
    (hlk : alookup (String.mk name) m = none) :
    checkDevs m (pre ++ tok :: post) = .error .keyError := by
  rw [checkDevs_prefix_ok m pre (tok :: post) hpre,
    checkDevs_cons_missing m tok post mon name hsplit hlk]

theorem checkDevs_stale (m : List (String × Resolved))
    (pre : List (List Char)) (tok : List Char) (post : List (List Char))
    (mon name : List Char) (r : Resolved) (hpre : ∀ q ∈ pre, tokMatches m q)
    (hsplit : splitOnChar '=' tok = [mon, name])
    (hlk : alookup (String.mk name) m = some r)
    (hid : r.hwmon.id ≠ String.mk mon) :
    checkDevs m (pre ++ tok :: post) = .ok (some true) := by
  rw [checkDevs_prefix_ok m pre (tok :: post) hpre,
    checkDevs_cons_found m tok post mon name r hsplit hlk, if_pos hid]

/-! ### Claim C3: the staleness check -/

/-- Claim C3 (amended): the staleness check returns true when no persisted
artifact exists.  With an artifact, the first line starting with "DEVNAME"
decides: it returns false exactly when every one of that line's pairs parses
as handle=name with the name resolving to a device whose current hwmon id
equals the handle; a pair whose handle differs (all earlier pairs matching)
yields true; but a pair whose name is MISSING from the current resolution
(all earlier pairs matching) raises a KeyError — crashing the check — rather
than returning true as the claim states. -/
theorem config_invalid_spec (m : List (String × Resolved)) :
    config_invalid none m = .ok (some true)
    ∧ (∀ lines L, lines.find? (fun l => pyStartsWith l "DEVNAME") = some L →
        config_invalid (some lines) m = checkDevs m (devTokens L))
    ∧ (∀ toks, checkDevs m toks = .ok (some false) ↔ ∀ tok ∈ toks, tokMatches m tok)
    ∧ (∀ pre tok post mon name, (∀ q ∈ pre, tokMatches m q) →
        splitOnChar '=' tok = [mon, name] → alookup (String.mk name) m = none →
        checkDevs m (pre ++ tok :: post) = .error .keyError)
    ∧ (∀ pre tok post mon name r, (∀ q ∈ pre, tokMatches m q) →
        splitOnChar '=' tok = [mon, name] → alookup (String.mk name) m = some r →
        r.hwmon.id ≠ String.mk mon →
        checkDevs m (pre ++ tok :: post) = .ok (some true)) := by
  refine ⟨rfl, ?_, ?_, ?_, ?_⟩
  · intro lines L hfind
    show ciScan m lines = _
    rw [ciScan_find m lines, hfind]
  · intro toks
    exact ⟨checkDevs_false_implies m toks, checkDevs_all m toks⟩
  · intro pre tok post mon name hpre hsplit hlk
    exact checkDevs_keyError m pre tok post mon name hpre hsplit hlk
  · intro pre tok post mon name r hpre hsplit hlk hid
    exact checkDevs_stale m pre tok post mon name r hpre hsplit hlk hid

/-- Claim C3 counterexample: an artifact naming a device absent from the
current resolution makes `config_invalid` raise a KeyError instead of
returning true (stale) as the claim states. -/
theorem config_invalid_missing_name_counterexample :
    config_invalid (some ["DEVNAME=hwmon2=nct6775 "]) ([] : List (String × Resolved))
      = .error .keyError
    ∧ config_invalid (some ["DEVNAME=hwmon2=nct6775 "]) ([] : List (String × Resolved))
      ≠ .ok (some true) := by
  have h1 : config_invalid (some ["DEVNAME=hwmon2=nct6775 "])
      ([] : List (String × Resolved)) = .error .keyError := rfl
  exact ⟨h1, fun h => by rw [h1] at h; cases h⟩

/-- Claim C3 witness: a matching artifact line (preceded by a non-DEVNAME
line) is reported not stale, and a mismatched handle is reported stale. -/
theorem config_invalid_spec_witness :
    config_invalid (some ["FOO=1", "DEVNAME=hwmon2=nct6775 "]) m0 = .ok (some false)
    ∧ config_invalid (some ["DEVNAME=hwmon9=nct6775 "]) m0 = .ok (some true) := by
  have h := config_invalid_spec m0
  constructor
  · rw [h.2.1 ["FOO=1", "DEVNAME=hwmon2=nct6775 "] "DEVNAME=hwmon2=nct6775 " rfl]
    refine (h.2.2.1 (devTokens "DEVNAME=hwmon2=nct6775 ")).mpr ?_
    intro tok htok
    rw [show devTokens "DEVNAME=hwmon2=nct6775 " = ["hwmon2=nct6775".data] from rfl] at htok
    rw [List.mem_singleton] at htok
    subst htok
    exact ⟨"hwmon2".data, "nct6775".data, ⟨okSettings, nctRef⟩, rfl, rfl, rfl⟩
  · rw [h.2.1 ["DEVNAME=hwmon9=nct6775 "] "DEVNAME=hwmon9=nct6775 " rfl]
    rw [show devTokens "DEVNAME=hwmon9=nct6775 " = ["hwmon9=nct6775".data] from rfl]
    rw [show (["hwmon9=nct6775".data] : List (List Char)) = [] ++ "hwmon9=nct6775".data :: []
      from rfl]
    refine h.2.2.2.2 [] "hwmon9=nct6775".data [] "hwmon9".data "nct6775".data
      ⟨okSettings, nctRef⟩ (by simp) rfl rfl (by decide)

/-! ### Claim C9: artifact with no DEVNAME line -/

/-- Claim C9: when the persisted artifact exists but no line starts with
"DEVNAME", `config_invalid` falls off its loop and returns Python `None`
(neither True nor False); `None` being falsy, the caller treats the
configuration as up to date and exits 0 without writing, although no device
pair was compared. -/
theorem config_invalid_no_devname (m : List (String × Resolved)) (lines : List String)
    (hnone : ∀ l ∈ lines, pyStartsWith l "DEVNAME" = false) :
    config_invalid (some lines) m = .ok none
    ∧ ∀ w : World, generate_mapping w = .ok m → w.fcconf = some lines →
        strTruthy w.argF = false → main_run w = (0, []) := by
  have h1 : config_invalid (some lines) m = .ok none := by
    show ciScan m lines = _
    rw [ciScan_find m lines, List.find?_eq_none.mpr (fun l hl => by simp [hnone l hl])]
  refine ⟨h1, ?_⟩
  intro w hgen hfc hargF
  simp [main_run, hgen, hfc, h1, hargF]

/-- Claim C9 witness: the artifact ["FOO=1"] yields `None` from the check and
the run exits 0 having written nothing. -/
theorem config_invalid_no_devname_witness :
    config_invalid (some ["FOO=1"]) m0 = .ok none
    ∧ main_run wNoDevname = (0, []) := by
  have h := config_invalid_no_devname m0 ["FOO=1"] (by decide)
  exact ⟨h.1, h.2 wNoDevname (by decide) (by decide) (by decide)⟩

/-! ### Claim C10: the -f override and the staleness gate -/

/-- Claim C10 counterexample: an output override is supplied (`-f -`) and the
mapping resolves, yet nothing is emitted: the staleness check raises a
KeyError (artifact names a device absent from the resolution), the run dies
with status 1 before reaching the emitter.  Emission under an override is
therefore not unconditional. -/
theorem main_override_counterexample :
    generate_mapping wGhost = .ok m0
    ∧ strTruthy wGhost.argF = true
    ∧ main_run wGhost = (1, []) := by
  refine ⟨by decide, by decide, by decide⟩

/-- Claim C10 (amended): whenever a (nonempty) output override is supplied
and the staleness check returns a result rather than raising, the run
proceeds to the write phase regardless of that result — the staleness result
can suppress regeneration only when no override is given; with the stdout
sentinel "-" and a clean emission, the full configuration is emitted and the
run exits 0.  (When the staleness check raises, the run aborts before
emission even under an override — see the counterexample.) -/
theorem main_override_emits (w : World) (m : List (String × Resolved)) (v : Option Bool)
    (hgen : generate_mapping w = .ok m)
    (hargF : strTruthy w.argF = true)
    (hci : config_invalid w.fcconf m = .ok v) :
    main_run w = writePhase w m
    ∧ (w.argF = some "-" → (generate_fc_config m).2 = none →
        main_run w = (0, (generate_fc_config m).1)) := by
  have h1 : main_run w = writePhase w m := by
    simp [main_run, hgen, hci, hargF]
  refine ⟨h1, ?_⟩
  intro hdash hemit
  rw [h1]
  unfold writePhase
  rw [hdash]
  split
  · simp [hemit]
  · next hcond => exact absurd rfl hcond

/-- Scenario world with `-f -` given and a persisted artifact that already
matches the current resolution (not stale). -/
def wDash : World :=
  ⟨true, [("nct6775", okSettings)], [eNct], allFS, some (generate_fc_config m0).1,
    some "-", true⟩

/-- Claim C10 witness: with `-f -` and an artifact that is already up to date
(staleness check returns False), emission still happens and the run exits 0
with the full ten lines. -/
theorem main_override_emits_witness :
    main_run wDash = (0, (generate_fc_config m0).1) := by
  have h := main_override_emits wDash m0 (some false) (by decide) (by decide) rfl
  exact h.2 (by decide) (by decide)

/-! ### Claim C8: process exit codes -/

/-- Scenario world whose persisted artifact already matches the current
resolution and no override is given. -/
def wUpToDate : World :=
  ⟨true, [("nct6775", okSettings)], [eNct], allFS, some (generate_fc_config m0).1,
    none, true⟩

/-- Scenario world writing to an unwritable destination. -/
def wNoPerm : World :=
  ⟨true, [("nct6775", okSettings)], [eNct], allFS, none, some "/etc/fancontrol", false⟩

/-- Claim C8 counterexample: a bad config and missing hardware — both listed
by the claim under exit code 1 — actually exit with the distinct code -1
(they are exceptions during mapping generation). -/
theorem main_exit_codes_counterexample :
    main_run wBadConf = (-1, []) ∧ main_run wMismatch = (-1, []) ∧ ((-1 : Int) ≠ 1) := by
  refine ⟨by decide, by decide, by decide⟩

/-- Claim C8 (amended): exit codes of one run.  0 on success after writing
and on "already up to date, no override" with no write; 1 when the intent
config FILE is missing, when opening the write destination fails (e.g. a
permission error), or when the staleness check raises an uncaught exception;
the distinct code -1 on ANY exception during mapping generation — which
includes a structurally invalid config and missing hardware, contrary to
the claim's assignment of those to code 1. -/
theorem main_exit_codes (w : World) :
    (w.configFileExists = false → main_run w = (1, []))
    ∧ (w.configFileExists = true → validate_config w.conf = false →
        main_run w = (-1, []))
    ∧ (∀ e, generate_mapping w = .raised e → main_run w = (-1, []))
    ∧ (∀ m e, generate_mapping w = .ok m → config_invalid w.fcconf m = .error e →
        main_run w = (1, []))
    ∧ (∀ m v, generate_mapping w = .ok m → config_invalid w.fcconf m = .ok v →
        v.getD false = false → strTruthy w.argF = false → main_run w = (0, []))
    ∧ (∀ m v, generate_mapping w = .ok m → config_invalid w.fcconf m = .ok v →
        (v.getD false = true ∨ strTruthy w.argF = true) →
        ¬(w.argF = some "-") → w.writable = false → main_run w = (1, []))
    ∧ (∀ m v, generate_mapping w = .ok m → config_invalid w.fcconf m = .ok v →
        (v.getD false = true ∨ strTruthy w.argF = true) →
        (w.argF = some "-" ∨ w.writable = true) → (generate_fc_config m).2 = none →
        main_run w = (0, (generate_fc_config m).1)) := by
  refine ⟨?_, ?_, ?_, ?_, ?_, ?_, ?_⟩
  · intro hex
    unfold main_run generate_mapping
    rw [hex]
    rfl
  · intro hex hval
    unfold main_run generate_mapping
    rw [hex, hval]
    simp
  · intro e hgen
    unfold main_run
    rw [hgen]
  · intro m e hgen hci
    simp [main_run, hgen, hci]
  · intro m v hgen hci hv hargF
    simp [main_run, hgen, hci, hv, hargF]
  · intro m v hgen hci hnotskip hnotdash hwr
    have hskip : (decide (v.getD false = false) && !strTruthy w.argF) = false := by
      rcases hnotskip with h | h
      · simp [h]
      · simp [h]
    simp only [main_run, hgen, hci, hskip]
    unfold writePhase
    rw [hwr]
    have hcond : (strTruthy w.argF && decide (w.argF = some "-")) = false := by
      simp [hnotdash]
    rw [hcond]
    simp
  · intro m v hgen hci hnotskip htgt hemit
    have hskip : (decide (v.getD false = false) && !strTruthy w.argF) = false := by
      rcases hnotskip with h | h
      · simp [h]
      · simp [h]
    simp only [main_run, hgen, hci, hskip]
    unfold writePhase
    rcases htgt with hdash | hwr
    · rw [hdash]
      rw [show (strTruthy (some "-") && decide ((some "-" : Option String) = some "-")) = true
        from rfl]
      simp [hemit]
    · rw [hwr]
      split <;> simp_all [hemit]

/-- Claim C8 witness: a missing config file exits 1; an up-to-date artifact
with no override exits 0 without writing; a successful fresh run writes the
configuration and exits 0; an unwritable destination exits 1 with nothing
written. -/
theorem main_exit_codes_witness :
    main_run wNoConf = (1, [])
    ∧ main_run wUpToDate = (0, [])
    ∧ main_run w0 = (0, (generate_fc_config m0).1)
    ∧ main_run wNoPerm = (1, []) := by
  refine ⟨(main_exit_codes wNoConf).1 rfl, ?_, ?_, ?_⟩
  · exact (main_exit_codes wUpToDate).2.2.2.2.1 m0 (some false) (by decide) rfl rfl rfl
  · exact (main_exit_codes w0).2.2.2.2.2.2 m0 (some true) (by decide) rfl (Or.inl rfl)
      (Or.inr rfl) (by decide)
  · exact (main_exit_codes wNoPerm).2.2.2.2.2.1 m0 (some true) (by decide) rfl
      (Or.inl rfl) (by decide) rfl

/-! ### Emission lemmas -/

theorem str_mk_data (s : String) : String.mk s.data = s := by
  cases s; rfl

/-- Per-device DEVPATH fragment. -/
def devpathChunk (p : String × Resolved) : String :=
  p.2.hwmon.id ++ "=" ++ p.2.hwmon.devpath ++ " "

/-- Per-device DEVNAME fragment. -/
def devnameChunk (p : String × Resolved) : String :=
  p.2.hwmon.id ++ "=" ++ p.1 ++ " "

/-- Per-device FCTEMPS fragment. -/
def fctempsChunk (p : String × Resolved) : String :=
  p.2.hwmon.id ++ "/pwm" ++ Nat.repr (p.2.settings.pwm.getD 0) ++ "=" ++
    p.2.hwmon.id ++ "/temp" ++ Nat.repr (p.2.settings.temp.getD 0) ++ "_input "

/-- Per-device FCFANS fragment. -/
def fcfansChunk (p : String × Resolved) : String :=
  p.2.hwmon.id ++ "/pwm" ++ Nat.repr (p.2.settings.pwm.getD 0) ++ "=" ++
    p.2.hwmon.id ++ "/fan" ++ Nat.repr (p.2.settings.fan.getD 0) ++ "_input "

/-- Per-device fragment of the limit lines (index 0 = the min line, 1 = the
max line). -/
def limChunk (which : RawLimits → Option (List Int)) (i : Nat)
    (p : String × Resolved) : String :=
  p.2.hwmon.id ++ "/pwm" ++ Nat.repr (p.2.settings.pwm.getD 0) ++ "=" ++
    Int.repr ((((which (p.2.settings.limits.getD ⟨none, none, none⟩)).getD []).get? i).getD 0)
    ++ " "

theorem gen_devpath_eq (l : List (String × Resolved)) :
    _generate_devpath l = "DEVPATH=" ++ strConcat (l.map devpathChunk) :=
  foldl_chunks devpathChunk l "DEVPATH="

theorem gen_devname_eq (l : List (String × Resolved)) :
    _generate_devname l = "DEVNAME=" ++ strConcat (l.map devnameChunk) :=
  foldl_chunks devnameChunk l "DEVNAME="

theorem gen_fctemps_eq (l : List (String × Resolved))
    (hgood : ∀ p ∈ l, goodSettings p.2.settings) :
    _generate_fctemps l = .ok ("FCTEMPS=" ++ strConcat (l.map fctempsChunk)) := by
  apply foldlM_chunks _ fctempsChunk l
  intro acc p hp
  obtain ⟨hpw, htp, hfn, L, hL, hst, htl, hpl⟩ := hgood p hp
  obtain ⟨a, ha⟩ := Option.isSome_iff_exists.mp hpw
  obtain ⟨b, hb⟩ := Option.isSome_iff_exists.mp htp
  show (pyGet p.2.settings.pwm >>= fun pwm => pyGet p.2.settings.temp >>= fun temp =>
    pure (acc ++ (p.2.hwmon.id ++ "/pwm" ++ Nat.repr pwm ++ "=" ++ p.2.hwmon.id ++
      "/temp" ++ Nat.repr temp ++ "_input "))) = _
  rw [ha, hb, pyGet_some, pyGet_some, exbind_ok, exbind_ok]
  show Except.ok _ = _
  simp [fctempsChunk, ha, hb]

theorem gen_fcfans_eq (l : List (String × Resolved))
    (hgood : ∀ p ∈ l, goodSettings p.2.settings) :
    _generate_fcfans l = .ok ("FCFANS=" ++ strConcat (l.map fcfansChunk)) := by
  apply foldlM_chunks _ fcfansChunk l
  intro acc p hp
  obtain ⟨hpw, htp, hfn, L, hL, hst, htl, hpl⟩ := hgood p hp
  obtain ⟨a, ha⟩ := Option.isSome_iff_exists.mp hpw
  obtain ⟨b, hb⟩ := Option.isSome_iff_exists.mp hfn
  show (pyGet p.2.settings.pwm >>= fun pwm => pyGet p.2.settings.fan >>= fun fan =>
    pure (acc ++ (p.2.hwmon.id ++ "/pwm" ++ Nat.repr pwm ++ "=" ++ p.2.hwmon.id ++
      "/fan" ++ Nat.repr fan ++ "_input "))) = _
  rw [ha, hb, pyGet_some, pyGet_some, exbind_ok, exbind_ok]
  show Except.ok _ = _
  simp [fcfansChunk, ha, hb]

theorem pyIdx_ok (lim : List Int) (i : Nat) (h : i < lim.length) :
    pyIdx lim i = .ok ((lim.get? i).getD 0) := by
  unfold pyIdx
  cases hg : lim.get? i with
  | none => exact absurd (List.get?_eq_none.mp hg) (by omega)
  | some a => simp [hg]

theorem gen_limits_eq (which : RawLimits → Option (List Int))
    (l : List (String × Resolved))
    (hgood : ∀ p ∈ l, goodSettings p.2.settings)
    (hwhich : ∀ L : RawLimits,
      ((∃ a, L.st = some a ∧ 2 ≤ a.length) ∧ (∃ a, L.temp = some a ∧ 2 ≤ a.length) ∧
        (∃ a, L.pwm = some a ∧ 2 ≤ a.length)) →
      ∃ a, which L = some a ∧ 2 ≤ a.length)
    (i1 i2 : String) :
    limitsFold which (i1, i2) l =
      .ok (i1 ++ strConcat (l.map (limChunk which 0)),
           i2 ++ strConcat (l.map (limChunk which 1))) := by
  apply foldlM_chunks2 _ (limChunk which 0) (limChunk which 1) l
  intro acc p hp
  obtain ⟨hpw, htp, hfn, L, hL, hst, htl, hpl⟩ := hgood p hp
  obtain ⟨a, ha⟩ := Option.isSome_iff_exists.mp hpw
  obtain ⟨lim, hlim, hlen⟩ := hwhich L ⟨hst, htl, hpl⟩
  show (pyGet p.2.settings.pwm >>= fun pwm => pyGet p.2.settings.limits >>= fun lims =>
    pyGet (which lims) >>= fun lim => pyIdx lim 0 >>= fun lo => pyIdx lim 1 >>= fun hi =>
    pure (acc.1 ++ (p.2.hwmon.id ++ "/pwm" ++ Nat.repr pwm ++ "=" ++ Int.repr lo ++ " "),
          acc.2 ++ (p.2.hwmon.id ++ "/pwm" ++ Nat.repr pwm ++ "=" ++ Int.repr hi ++ " "))) = _
  rw [ha, hL, pyGet_some, pyGet_some, exbind_ok, exbind_ok, hlim, pyGet_some, exbind_ok,
    pyIdx_ok lim 0 (by omega), exbind_ok, pyIdx_ok lim 1 (by omega), exbind_ok]
  show Except.ok _ = _
  simp [limChunk, ha, hL, hlim]

theorem gen_temp_limits_eq (l : List (String × Resolved))
    (hgood : ∀ p ∈ l, goodSettings p.2.settings) :
    _generate_temp_limits l = .ok (("MINTEMP=" ++ strConcat (l.map (limChunk RawLimits.temp 0)))
      ++ "\n" ++ ("MAXTEMP=" ++ strConcat (l.map (limChunk RawLimits.temp 1)))) := by
  unfold _generate_temp_limits
  rw [gen_limits_eq RawLimits.temp l hgood (fun L hL => hL.2.1) "MINTEMP=" "MAXTEMP="]
  rfl

theorem gen_start_limits_eq (l : List (String × Resolved))
    (hgood : ∀ p ∈ l, goodSettings p.2.settings) :
    _generate_start_limits l = .ok (("MINSTART=" ++ strConcat (l.map (limChunk RawLimits.st 0)))
      ++ "\n" ++ ("MINSTOP=" ++ strConcat (l.map (limChunk RawLimits.st 1)))) := by
  unfold _generate_start_limits
  rw [gen_limits_eq RawLimits.st l hgood (fun L hL => hL.1) "MINSTART=" "MINSTOP="]
  rfl

theorem gen_pwm_limits_eq (l : List (String × Resolved))
    (hgood : ∀ p ∈ l, goodSettings p.2.settings) :
    _generate_pwm_limits l = .ok (("MINPWM=" ++ strConcat (l.map (limChunk RawLimits.pwm 0)))
      ++ "\n" ++ ("MAXPWM=" ++ strConcat (l.map (limChunk RawLimits.pwm 1)))) := by
  unfold _generate_pwm_limits
  rw [gen_limits_eq RawLimits.pwm l hgood (fun L hL => hL.2.2) "MINPWM=" "MAXPWM="]
  rfl

/-- The ten output lines, named. -/
def dpLine (m : List (String × Resolved)) : String := "DEVPATH=" ++ strConcat (m.map devpathChunk)

/-- DEVNAME line. -/
def dnLine (m : List (String × Resolved)) : String := "DEVNAME=" ++ strConcat (m.map devnameChunk)

/-- FCTEMPS line. -/
def ftLine (m : List (String × Resolved)) : String := "FCTEMPS=" ++ strConcat (m.map fctempsChunk)

/-- FCFANS line. -/
def ffLine (m : List (String × Resolved)) : String := "FCFANS=" ++ strConcat (m.map fcfansChunk)

/-- MINTEMP line. -/
def mintempLine (m : List (String × Resolved)) : String :=
  "MINTEMP=" ++ strConcat (m.map (limChunk RawLimits.temp 0))

/-- MAXTEMP line. -/
def maxtempLine (m : List (String × Resolved)) : String :=
  "MAXTEMP=" ++ strConcat (m.map (limChunk RawLimits.temp 1))

/-- MINSTART line. -/
def minstartLine (m : List (String × Resolved)) : String :=
  "MINSTART=" ++ strConcat (m.map (limChunk RawLimits.st 0))

/-- MINSTOP line. -/
def minstopLine (m : List (String × Resolved)) : String :=
  "MINSTOP=" ++ strConcat (m.map (limChunk RawLimits.st 1))

/-- MINPWM line. -/
def minpwmLine (m : List (String × Resolved)) : String :=
  "MINPWM=" ++ strConcat (m.map (limChunk RawLimits.pwm 0))

/-- MAXPWM line. -/
def maxpwmLine (m : List (String × Resolved)) : String :=
  "MAXPWM=" ++ strConcat (m.map (limChunk RawLimits.pwm 1))

/-- Absence of newlines in the strings of one resolved device (true of every
real device name, hwmon handle and sysfs path). -/
def noNlResolved (p : String × Resolved) : Prop :=
  '\n' ∉ p.1.data ∧ '\n' ∉ p.2.hwmon.id.data ∧ '\n' ∉ p.2.hwmon.devpath.data

theorem devpathChunk_no_nl (p : String × Resolved) (h : noNlResolved p) :
    '\n' ∉ (devpathChunk p).data := by
  unfold devpathChunk
  apply notin_str_append
  · apply notin_str_append
    · apply notin_str_append
      · exact h.2.1
      · decide
    · exact h.2.2
  · decide

theorem devnameChunk_no_nl (p : String × Resolved) (h : noNlResolved p) :
    '\n' ∉ (devnameChunk p).data := by
  unfold devnameChunk
  apply notin_str_append
  · apply notin_str_append
    · apply notin_str_append
      · exact h.2.1
      · decide
    · exact h.1
  · decide

theorem fctempsChunk_no_nl (p : String × Resolved) (h : noNlResolved p) :
    '\n' ∉ (fctempsChunk p).data := by
  unfold fctempsChunk
  apply notin_str_append
  · apply notin_str_append
    · apply notin_str_append
      · apply notin_str_append
        · apply notin_str_append
          · apply notin_str_append
            · apply notin_str_append
              · exact h.2.1
              · decide
            · exact natRepr_no_newline _
          · decide
        · exact h.2.1
      · decide
    · exact natRepr_no_newline _
  · decide

theorem fcfansChunk_no_nl (p : String × Resolved) (h : noNlResolved p) :
    '\n' ∉ (fcfansChunk p).data := by
  unfold fcfansChunk
  apply notin_str_append
  · apply notin_str_append
    · apply notin_str_append
      · apply notin_str_append
        · apply notin_str_append
          · apply notin_str_append
            · apply notin_str_append
              · exact h.2.1
              · decide
            · exact natRepr_no_newline _
          · decide
        · exact h.2.1
      · decide
    · exact natRepr_no_newline _
  · decide

theorem limChunk_no_nl (which : RawLimits → Option (List Int)) (i : Nat)
    (p : String × Resolved) (h : noNlResolved p) :
    '\n' ∉ (limChunk which i p).data := by
  unfold limChunk
  apply notin_str_append
  · apply notin_str_append
    · apply notin_str_append
      · apply notin_str_append
        · apply notin_str_append
          · exact h.2.1
          · decide
        · exact natRepr_no_newline _
      · decide
    · exact intRepr_no_newline _
  · decide

theorem line_no_nl (key : String) (hkey : '\n' ∉ key.data)
    (chunks : List String) (hc : ∀ s ∈ chunks, '\n' ∉ s.data) :
    '\n' ∉ (key ++ strConcat chunks).data :=
  notin_str_append _ _ _ hkey (notin_strConcat _ _ hc)

theorem runPrints_ok7 (a b c d e f g : String) :
    runPrints [.ok a, .ok b, .ok c, .ok d, .ok e, .ok f, .ok g] =
      ([a, b, c, d, e, f, g], none) := rfl

theorem splitLine_single (s : String) (h : '\n' ∉ s.data) :
    (splitOnChar '\n' s.data).map String.mk = [s] := by
  rw [splitOnChar_no _ _ h]
  simp [str_mk_data]

theorem splitLine_pair (x y : String) (hx : '\n' ∉ x.data) (hy : '\n' ∉ y.data) :
    (splitOnChar '\n' ((x ++ "\n" ++ y)).data).map String.mk = [x, y] := by
  have hdata : ((x ++ "\n") ++ y).data = x.data ++ '\n' :: y.data := by
    rw [str_data_append, str_data_append]
    simp
  rw [hdata, splitOnChar_append _ _ _ hx, splitOnChar_no _ _ hy]
  simp [str_mk_data]

theorem fc_lines_eq (m : List (String × Resolved))
    (hgood : ∀ p ∈ m, goodSettings p.2.settings)
    (hnl : ∀ p ∈ m, noNlResolved p) :
    generate_fc_config m =
      ([dpLine m, dnLine m, ftLine m, ffLine m, mintempLine m, maxtempLine m,
        minstartLine m, minstopLine m, minpwmLine m, maxpwmLine m], none) := by
  have hmem : ∀ (f : (String × Resolved) → String),
      (∀ p ∈ m, '\n' ∉ (f p).data) → ∀ s ∈ m.map f, '\n' ∉ s.data := by
    intro f hf s hs
    obtain ⟨p, hp, rfl⟩ := List.mem_map.mp hs
    exact hf p hp
  have hdp := line_no_nl "DEVPATH=" (by decide) (m.map devpathChunk)
    (hmem _ (fun p hp => devpathChunk_no_nl p (hnl p hp)))
  have hdn := line_no_nl "DEVNAME=" (by decide) (m.map devnameChunk)
    (hmem _ (fun p hp => devnameChunk_no_nl p (hnl p hp)))
  have hft := line_no_nl "FCTEMPS=" (by decide) (m.map fctempsChunk)
    (hmem _ (fun p hp => fctempsChunk_no_nl p (hnl p hp)))
  have hff := line_no_nl "FCFANS=" (by decide) (m.map fcfansChunk)
    (hmem _ (fun p hp => fcfansChunk_no_nl p (hnl p hp)))
  have hmint := line_no_nl "MINTEMP=" (by decide) (m.map (limChunk RawLimits.temp 0))
    (hmem _ (fun p hp => limChunk_no_nl _ _ p (hnl p hp)))
  have hmaxt := line_no_nl "MAXTEMP=" (by decide) (m.map (limChunk RawLimits.temp 1))
    (hmem _ (fun p hp => limChunk_no_nl _ _ p (hnl p hp)))
  have hmins := line_no_nl "MINSTART=" (by decide) (m.map (limChunk RawLimits.st 0))
    (hmem _ (fun p hp => limChunk_no_nl _ _ p (hnl p hp)))
  have hminso := line_no_nl "MINSTOP=" (by decide) (m.map (limChunk RawLimits.st 1))
    (hmem _ (fun p hp => limChunk_no_nl _ _ p (hnl p hp)))
  have hminp := line_no_nl "MINPWM=" (by decide) (m.map (limChunk RawLimits.pwm 0))
    (hmem _ (fun p hp => limChunk_no_nl _ _ p (hnl p hp)))
  have hmaxp := line_no_nl "MAXPWM=" (by decide) (m.map (limChunk RawLimits.pwm 1))
    (hmem _ (fun p hp => limChunk_no_nl _ _ p (hnl p hp)))
  unfold generate_fc_config fcPrints
  rw [gen_devpath_eq, gen_devname_eq, gen_fctemps_eq m hgood, gen_fcfans_eq m hgood,
    gen_temp_limits_eq m hgood, gen_start_limits_eq m hgood, gen_pwm_limits_eq m hgood]
  rw [runPrints_ok7]
  show (writtenLines _, (none : Option PyErr)) = _
  unfold writtenLines
  simp only [List.flatMap_cons, List.flatMap_nil, List.append_nil]
  rw [splitLine_single _ hdp, splitLine_single _ hdn, splitLine_single _ hft,
    splitLine_single _ hff, splitLine_pair _ _ hmint hmaxt,
    splitLine_pair _ _ hmins hminso, splitLine_pair _ _ hminp hmaxp]
  unfold dpLine dnLine ftLine ffLine mintempLine maxtempLine minstartLine minstopLine
    minpwmLine maxpwmLine
  rfl

theorem line_ends_space (key : String) (f : (String × Resolved) → String)
    (m : List (String × Resolved)) (hne : m ≠ [])
    (hf : ∀ p, ∃ t, f p = t ++ " ") :
    ∃ t, key ++ strConcat (m.map f) = t ++ " " := by
  obtain ⟨t, ht⟩ := strConcat_ends_space (m.map f) (by simp [hne]) (fun s hs => by
    obtain ⟨p, hp, rfl⟩ := List.mem_map.mp hs
    exact hf p)
  exact ⟨key ++ t, by rw [ht, str_append_assoc]⟩

/-! ### Claim C5: emitter layout -/

/-- Claim C5: the emitter writes the ten directives in the fixed order
DEVPATH, DEVNAME, FCTEMPS, FCFANS, MINTEMP, MAXTEMP, MINSTART, MINSTOP,
MINPWM, MAXPWM, with no error; on a nonempty mapping every line ends in a
trailing delimiter space; and for the scenario device nct6775 resolved to
hwmon2 with pwm and temp channels 1, the FCTEMPS line is byte-exactly
"FCTEMPS=hwmon2/pwm1=hwmon2/temp1_input ". -/
theorem generate_fc_layout (m : List (String × Resolved))
    (hgood : ∀ p ∈ m, goodSettings p.2.settings)
    (hnl : ∀ p ∈ m, noNlResolved p) :
    generate_fc_config m =
      ([dpLine m, dnLine m, ftLine m, ffLine m, mintempLine m, maxtempLine m,
        minstartLine m, minstopLine m, minpwmLine m, maxpwmLine m], none)
    ∧ (m ≠ [] → ∀ s ∈ [dpLine m, dnLine m, ftLine m, ffLine m, mintempLine m,
        maxtempLine m, minstartLine m, minstopLine m, minpwmLine m, maxpwmLine m],
        ∃ t, s = t ++ " ")
    ∧ ftLine m0 = "FCTEMPS=hwmon2/pwm1=hwmon2/temp1_input " := by
  refine ⟨fc_lines_eq m hgood hnl, ?_, by rfl⟩
  intro hne s hs
  simp only [List.mem_cons, List.mem_singleton] at hs
  rcases hs with rfl | rfl | rfl | rfl | rfl | rfl | rfl | rfl | rfl | rfl | hfalse
  · exact line_ends_space _ _ m hne
      (fun p => ⟨p.2.hwmon.id ++ "=" ++ p.2.hwmon.devpath, rfl⟩)
  · exact line_ends_space _ _ m hne (fun p => ⟨p.2.hwmon.id ++ "=" ++ p.1, rfl⟩)
  · refine line_ends_space _ _ m hne (fun p => ⟨p.2.hwmon.id ++ "/pwm" ++
      Nat.repr (p.2.settings.pwm.getD 0) ++ "=" ++ p.2.hwmon.id ++ "/temp" ++
      Nat.repr (p.2.settings.temp.getD 0) ++ "_input", ?_⟩)
    apply str_eq_of_data
    simp [fctempsChunk, str_data_append]
  · refine line_ends_space _ _ m hne (fun p => ⟨p.2.hwmon.id ++ "/pwm" ++
      Nat.repr (p.2.settings.pwm.getD 0) ++ "=" ++ p.2.hwmon.id ++ "/fan" ++
      Nat.repr (p.2.settings.fan.getD 0) ++ "_input", ?_⟩)
    apply str_eq_of_data
    simp [fcfansChunk, str_data_append]
  · exact line_ends_space _ _ m hne (fun p => ⟨_, rfl⟩)
  · exact line_ends_space _ _ m hne (fun p => ⟨_, rfl⟩)
  · exact line_ends_space _ _ m hne (fun p => ⟨_, rfl⟩)
  · exact line_ends_space _ _ m hne (fun p => ⟨_, rfl⟩)
  · exact line_ends_space _ _ m hne (fun p => ⟨_, rfl⟩)
  · exact line_ends_space _ _ m hne (fun p => ⟨_, rfl⟩)
  · simp at hfalse

/-- Claim C5 witness: the full emitted file of the scenario mapping, line by
line, with the FCTEMPS line of the spec scenario. -/
theorem generate_fc_layout_witness :
    generate_fc_config m0 =
      (["DEVPATH=hwmon2=devices/pci0000:00/0000:00:18.3 ", "DEVNAME=hwmon2=nct6775 ",
        "FCTEMPS=hwmon2/pwm1=hwmon2/temp1_input ", "FCFANS=hwmon2/pwm1=hwmon2/fan1_input ",
        "MINTEMP=hwmon2/pwm1=40 ", "MAXTEMP=hwmon2/pwm1=70 ", "MINSTART=hwmon2/pwm1=50 ",
        "MINSTOP=hwmon2/pwm1=150 ", "MINPWM=hwmon2/pwm1=0 ", "MAXPWM=hwmon2/pwm1=255 "],
        none)
    ∧ ftLine m0 = "FCTEMPS=hwmon2/pwm1=hwmon2/temp1_input " := by
  have hgood : ∀ p ∈ m0, goodSettings p.2.settings := by
    intro p hp
    simp only [m0, List.mem_singleton] at hp
    subst hp
    exact ⟨rfl, rfl, rfl, okLimits, rfl, ⟨[50, 150], rfl, by decide⟩,
      ⟨[40, 70], rfl, by decide⟩, ⟨[0, 255], rfl, by decide⟩⟩
  have hnl : ∀ p ∈ m0, noNlResolved p := by
    intro p hp
    simp only [m0, List.mem_singleton] at hp
    subst hp
    exact ⟨by decide, by decide, by decide⟩
  have h := generate_fc_layout m0 hgood hnl
  exact ⟨h.1.trans (by rfl), h.2.2⟩

/-! ### Claim C7: idempotence of generation -/

/-- A string usable as a device name or monitor handle in the DEVNAME line:
nonempty, no whitespace, no "=" (true of driver names and hwmonN handles). -/
def cleanStr (s : String) : Prop :=
  s ≠ "" ∧ ∀ c ∈ s.data, c.isWhitespace = false ∧ c ≠ '='

/-- Well-formedness of one resolved device for the DEVNAME round trip: clean
name and handle, whitespace-free device path, and a handle whose first
character is none of the characters `strip("DEVNAME=")` removes (true of
every real handle, which starts with 'h'). -/
def wfResolved (p : String × Resolved) : Prop :=
  cleanStr p.1 ∧ cleanStr p.2.hwmon.id ∧
  (∀ c ∈ p.2.hwmon.devpath.data, c.isWhitespace = false) ∧
  (∀ c2, p.2.hwmon.id.data.head? = some c2 → ("DEVNAME=".data.contains c2) = false)

theorem str_ne_nil (s : String) (h : s ≠ "") : s.data ≠ [] :=
  fun hd => h (str_eq_of_data s "" hd)

theorem wf_noNl (p : String × Resolved) (h : wfResolved p) : noNlResolved p := by
  refine ⟨?_, ?_, ?_⟩
  · intro hmem
    exact absurd (h.1.2 '\n' hmem).1 (by decide)
  · intro hmem
    exact absurd (h.2.1.2 '\n' hmem).1 (by decide)
  · intro hmem
    exact absurd (h.2.2.1 '\n' hmem) (by decide)

theorem devname_words (m : List (String × Resolved)) (hwf : ∀ p ∈ m, wfResolved p) :
    pyWords (strConcat (m.map devnameChunk)).data =
      m.map (fun p => (p.2.hwmon.id ++ "=" ++ p.1).data) := by
  induction m with
  | nil => rfl
  | cons p m2 ih =>
    have hwfp := hwf p (by simp)
    show pyWords ((devnameChunk p ++ strConcat (m2.map devnameChunk))).data = _
    have hdata : (devnameChunk p ++ strConcat (m2.map devnameChunk)).data =
        (p.2.hwmon.id ++ "=" ++ p.1).data ++ ' ' ::
          (strConcat (m2.map devnameChunk)).data := by
      rw [str_data_append,
        show (devnameChunk p).data = (p.2.hwmon.id ++ "=" ++ p.1).data ++ [' '] by
          unfold devnameChunk
          rw [str_data_append],
        List.append_assoc]
      rfl
    rw [hdata]
    have hnoWs : ∀ c ∈ ((p.2.hwmon.id ++ "=" ++ p.1)).data, c.isWhitespace = false := by
      intro c hc
      rw [str_data_append, str_data_append] at hc
      rcases List.mem_append.mp hc with hc1 | hc2
      · rcases List.mem_append.mp hc1 with hc3 | hc4
        · exact (hwfp.2.1.2 c hc3).1
        · rw [show ("=" : String).data = ['='] from rfl, List.mem_singleton] at hc4
          subst hc4
          decide
      · exact (hwfp.1.2 c hc2).1
    have hne2 : ((p.2.hwmon.id ++ "=" ++ p.1)).data ≠ [] := by
      rw [str_data_append, str_data_append]
      intro hnil
      exact str_ne_nil _ hwfp.2.1.1 (List.append_eq_nil.mp (List.append_eq_nil.mp hnil).1).1
    rw [pyWords_chunk _ _ hnoWs hne2, ih (fun q hq => hwf q (by simp [hq]))]
    rfl

theorem devTokens_dnLine (m : List (String × Resolved)) (hwf : ∀ p ∈ m, wfResolved p) :
    devTokens (dnLine m) = m.map (fun p => (p.2.hwmon.id ++ "=" ++ p.1).data) := by
  cases m with
  | nil => rfl
  | cons p m2 =>
    unfold devTokens
    have hdnd : (dnLine (p :: m2)).data =
        "DEVNAME=".data ++ (strConcat ((p :: m2).map devnameChunk)).data := by
      unfold dnLine
      rw [str_data_append]
    rw [hdnd]
    have hwfp := hwf p (by simp)
    obtain ⟨c0, t0, hc0⟩ : ∃ c0 t0, p.2.hwmon.id.data = c0 :: t0 := by
      cases hid : p.2.hwmon.id.data with
      | nil => exact absurd hid (str_ne_nil _ hwfp.2.1.1)
      | cons a b => exact ⟨a, b, rfl⟩
    have hchunks : ∀ s ∈ ((p :: m2).map devnameChunk), ∃ t, s = t ++ " " := by
      intro s hs
      obtain ⟨q, hq, rfl⟩ := List.mem_map.mp hs
      exact ⟨q.2.hwmon.id ++ "=" ++ q.1, rfl⟩
    obtain ⟨tt, htt⟩ :=
      strConcat_ends_space ((p :: m2).map devnameChunk) (by simp) hchunks
    have hstrip : pyStripChars "DEVNAME="
        ("DEVNAME=".data ++ (strConcat ((p :: m2).map devnameChunk)).data) =
        (strConcat ((p :: m2).map devnameChunk)).data := by
      apply pyStripBy_of_clean
      · decide
      · refine ⟨c0, t0 ++ '=' :: p.1.data ++ ' ' ::
          (strConcat (m2.map devnameChunk)).data, ?_, hwfp.2.2.2 c0 (by rw [hc0]; rfl)⟩
        show (devnameChunk p ++ strConcat (m2.map devnameChunk)).data = _
        rw [str_data_append,
          show (devnameChunk p).data = (p.2.hwmon.id ++ "=" ++ p.1).data ++ [' '] by
            unfold devnameChunk
            rw [str_data_append],
          str_data_append, str_data_append, hc0]
        simp
      · refine ⟨tt.data, ' ', ?_, by decide⟩
        rw [htt, str_data_append]
    rw [hstrip, devname_words (p :: m2) hwf]

/-- Claim C7: generating twice in a row is idempotent.  For every resolved
mapping (device names unique; names and handles free of whitespace and "=";
handles not starting with a strip character — all true of real hardware),
parsing the DEVNAME line the emitter just wrote and comparing it against the
same mapping reports not-stale; consequently a second run over the freshly
written artifact with no output override exits 0 and writes nothing. -/
theorem regenerate_not_stale (m : List (String × Resolved))
    (hnd : (m.map Prod.fst).Nodup)
    (hwf : ∀ p ∈ m, wfResolved p)
    (hgood : ∀ p ∈ m, goodSettings p.2.settings) :
    config_invalid (some (generate_fc_config m).1) m = .ok (some false)
    ∧ ∀ w : World, generate_mapping w = .ok m →
        main_run ⟨w.configFileExists, w.conf, w.entries, w.fs,
          some (generate_fc_config m).1, none, w.writable⟩ = (0, []) := by
  have hnl : ∀ p ∈ m, noNlResolved p := fun p hp => wf_noNl p (hwf p hp)
  have hlines := fc_lines_eq m hgood hnl
  have h1 : pyStartsWith (dpLine m) "DEVNAME" = false := by
    unfold pyStartsWith
    rw [show (dpLine m).data =
        "DEV".data ++ 'P' :: ("ATH=".data ++ (strConcat (m.map devpathChunk)).data) by
      unfold dpLine
      rw [str_data_append]
      rfl,
      show ("DEVNAME" : String).data = "DEV".data ++ 'N' :: "AME".data from rfl]
    exact beginsWith_false_of_diff _ _ _ _ _ (by decide)
  have h2 : pyStartsWith (dnLine m) "DEVNAME" = true := by
    unfold pyStartsWith
    rw [show (dnLine m).data =
        "DEVNAME".data ++ ('=' :: (strConcat (m.map devnameChunk)).data) by
      unfold dnLine
      rw [str_data_append]
      rfl]
    exact beginsWith_self_append _ _
  have hci : config_invalid (some (generate_fc_config m).1) m = .ok (some false) := by
    rw [hlines]
    show ciScan m [dpLine m, dnLine m, ftLine m, ffLine m, mintempLine m, maxtempLine m,
      minstartLine m, minstopLine m, minpwmLine m, maxpwmLine m] = _
    rw [ciScan_find]
    rw [show ([dpLine m, dnLine m, ftLine m, ffLine m, mintempLine m, maxtempLine m,
        minstartLine m, minstopLine m, minpwmLine m, maxpwmLine m].find?
          (fun l => pyStartsWith l "DEVNAME")) = some (dnLine m) by
      simp [List.find?_cons, h1, h2]]
    show checkDevs m (devTokens (dnLine m)) = _
    rw [devTokens_dnLine m hwf]
    apply checkDevs_all
    intro tok htok
    obtain ⟨p, hp, rfl⟩ := List.mem_map.mp htok
    have hwfp := hwf p hp
    refine ⟨p.2.hwmon.id.data, p.1.data, p.2, ?_, ?_, ?_⟩
    · rw [show (p.2.hwmon.id ++ "=" ++ p.1).data =
          p.2.hwmon.id.data ++ '=' :: p.1.data by
        rw [str_data_append, str_data_append]
        simp]
      rw [splitOnChar_append _ _ _ (fun hc => (hwfp.2.1.2 '=' hc).2 rfl),
        splitOnChar_no _ _ (fun hc => (hwfp.1.2 '=' hc).2 rfl)]
    · rw [str_mk_data]
      exact alookup_of_mem_nodup p.1 p.2 m hnd hp
    · rw [str_mk_data]
  refine ⟨hci, ?_⟩
  intro w hgen
  have hgen2 : generate_mapping ⟨w.configFileExists, w.conf, w.entries, w.fs,
      some (generate_fc_config m).1, none, w.writable⟩ = .ok m := hgen
  simp [main_run, hgen2, hci, strTruthy]

/-- Claim C7 witness: on the scenario mapping, the emitted artifact parses
back as not-stale and the second run (same config, same scan, artifact in
place, no override) exits 0 without writing. -/
theorem regenerate_not_stale_witness :
    config_invalid (some (generate_fc_config m0).1) m0 = .ok (some false)
    ∧ main_run wUpToDate = (0, []) := by
  have hwf : ∀ p ∈ m0, wfResolved p := by
    intro p hp
    simp only [m0, List.mem_singleton] at hp
    subst hp
    refine ⟨⟨by decide, by decide⟩, ⟨by decide, by decide⟩, by decide, ?_⟩
    intro c2 hc2
    have h3 : some 'h' = some c2 := hc2
    have h4 := Option.some.inj h3
    subst h4
    decide
  have hgood : ∀ p ∈ m0, goodSettings p.2.settings := by
    intro p hp
    simp only [m0, List.mem_singleton] at hp
    subst hp
    exact ⟨rfl, rfl, rfl, okLimits, rfl, ⟨[50, 150], rfl, by decide⟩,
      ⟨[40, 70], rfl, by decide⟩, ⟨[0, 255], rfl, by decide⟩⟩
  have h := regenerate_not_stale m0 (by decide) hwf hgood
  exact ⟨h.1, h.2 w0 (by decide)⟩
